import Mathlib

/-!
# Go-Capstone-Project: a three-route HTTP server (`main.go`)

Shallow embedding of `main.go` and of the parts of the Go standard library it
calls, followed by theorems about the routing and the response bodies.

Conventions of the embedding.

* A Go `string` is a sequence of bytes: `Bytes = List UInt8`.  String literals
  of the source are written as Lean string literals under `utf8`, which yields
  their UTF-8 bytes, as the Go compiler does.
* A handler writes to an `http.ResponseWriter`; the writer is modelled by the
  bytes written to the body so far, and a handler is a function from the writer
  before the call to the writer after it.
* A Go function that can panic returns `Except Fault _`.
* The wall clock (`time.Now()`) is an explicit argument.
* Standard-library functions (`fmt`, `time`, `path`, `net/url`, `net/http`) are
  embedded from their Go sources, restricted where noted to the fragment that
  `main.go` exercises; anything outside a modelled fragment yields
  `Fault.unmodelled` and never a made-up value.  `http.ServeMux` is the
  multiplexer of Go 1.22 and later: patterns are parsed into segments and kept
  in a routing tree, a request is matched segment by segment on its escaped
  path (`URL.EscapedPath`), and the match is preceded by the trailing-slash and
  path-cleaning redirects.  The status code of these redirects differs between
  releases of the library and is a parameter (`Lib.redirectStatus`).
* A request is one that the server's parser produced: its URL path is empty,
  `*`, or begins with `/`.
-/

set_option maxRecDepth 100000

namespace GoCapstone

/-! ## Strings -/

/-- A Go string: a finite sequence of bytes. -/
abbrev Bytes := List UInt8

/-- The UTF-8 bytes of a string literal. -/
def utf8 (s : String) : Bytes := s.data.flatMap String.utf8EncodeChar

/-- Ways in which a modelled Go call can fail to return normally. -/
inductive Fault where
  /-- A run-time panic: slice bounds out of range. -/
  | sliceOutOfRange
  /-- A run-time panic raised by `http.Handle` (empty or duplicate pattern). -/
  | invalidPattern
  /-- The call leaves the fragment of the standard library that is modelled. -/
  | unmodelled
  deriving DecidableEq, Repr

deriving instance DecidableEq for Except

/-- Go slice expression `s[lo:]`: panics when `lo > len(s)`. -/
def sliceFrom (s : Bytes) (lo : Nat) : Except Fault Bytes :=
  if lo ≤ s.length then .ok (s.drop lo) else .error .sliceOutOfRange

/-! ## Package `fmt` -/

/-- Fragment of `fmt.Sprintf`: literal bytes, the verb `%s` applied to a string
operand, and `%%`.  Flags, widths, other verbs, a missing or a surplus operand
and a trailing `%` are outside the fragment (`none`).  Byte 37 is `%`, byte 115
is `s`. -/
def Sprintf : Bytes → List Bytes → Option Bytes
  | [], [] => some []
  | [], _ :: _ => none
  | [c], args => if c = 37 then none else (Sprintf [] args).map (c :: ·)
  | c :: d :: rest, args =>
    if c = 37 then
      if d = 115 then
        match args with
        | [] => none
        | a :: args => (Sprintf rest args).map (a ++ ·)
      else if d = 37 then (Sprintf rest args).map (c :: ·)
      else none
    else (Sprintf (d :: rest) args).map (c :: ·)

/-- Function `fmt.Println` as the bytes it writes: the operands separated by
single spaces, followed by a newline. -/
def Println (args : List Bytes) : Bytes :=
  [32].intercalate args ++ [10]

/-! ## Package `time` -/

/-- A clock reading, as the fields that `Time.Date` and `Time.Clock` return
for it.  The year is signed; the other five fields are never negative. -/
structure Time where
  year : Int
  month : Nat
  day : Nat
  hour : Nat
  min : Nat
  sec : Nat
  deriving DecidableEq, Repr

/-- The readings a clock can produce with a four-digit year: the civil ranges
of the six fields. -/
def Time.valid (t : Time) : Prop :=
  0 ≤ t.year ∧ t.year ≤ 9999 ∧ 1 ≤ t.month ∧ t.month ≤ 12 ∧ 1 ≤ t.day ∧ t.day ≤ 31 ∧
    t.hour ≤ 23 ∧ t.min ≤ 59 ∧ t.sec ≤ 59

instance (t : Time) : Decidable t.valid := by
  unfold Time.valid; infer_instance

/-- Local function `utod` of `time.appendInt`: `'0' + byte(u)`. -/
def utod (u : Nat) : UInt8 := 48 + UInt8.ofNat u

/-- Function `time.appendInt`: the decimal form of `x`, zero-padded to `width`
digits, appended to `b`. -/
def appendInt (b : Bytes) (x : Int) (width : Nat) : Bytes :=
  let u := x.natAbs
  let b := if x < 0 then b ++ [45] else b
  if width = 2 ∧ u < 100 then
    b ++ [utod (u / 10), utod (u % 10)]
  else if width = 4 ∧ u < 10000 then
    b ++ [utod (u / 1000), utod (u / 100 % 10), utod (u / 10 % 10), utod (u % 10)]
  else
    let ds := (Nat.toDigits 10 u).map (fun c => UInt8.ofNat c.toNat)
    b ++ List.replicate (width - ds.length) 48 ++ ds

/-- Fragment of `Time.AppendFormat`: the layout is scanned left to right, the
numeric reference chunks `2006`, `01`, `02`, `15`, `04`, `05` are replaced by
the fields of `t`, and every other byte is copied.  A byte that could start a
reference chunk outside this fragment yields `none`: the letters `J M P Z _ p`,
a `.` or `,` (fractional seconds), a `-` followed by `07` (zone offsets), and
the digits `0` to `5` in any other combination than the six chunks above.
Bytes: `0`..`6` are 48..54, `7` is 55. -/
def appendFormat (t : Time) : Bytes → Option Bytes
  | [] => some []
  | c :: rest =>
    if c = 50 then
      -- '2': "2006" is stdLongYear
      match rest with
      | 48 :: 48 :: 54 :: rest3 => (appendFormat t rest3).map (appendInt [] t.year 4 ++ ·)
      | _ => none
    else if c = 48 then
      -- '0': "01" stdZeroMonth, "02" stdZeroDay, "04" stdZeroMinute, "05" stdZeroSecond
      match rest with
      | 49 :: rest1 => (appendFormat t rest1).map (appendInt [] t.month 2 ++ ·)
      | 50 :: rest1 => (appendFormat t rest1).map (appendInt [] t.day 2 ++ ·)
      | 52 :: rest1 => (appendFormat t rest1).map (appendInt [] t.min 2 ++ ·)
      | 53 :: rest1 => (appendFormat t rest1).map (appendInt [] t.sec 2 ++ ·)
      | _ => none
    else if c = 49 then
      -- '1': "15" is stdHour
      match rest with
      | 53 :: rest1 => (appendFormat t rest1).map (appendInt [] t.hour 2 ++ ·)
      | _ => none
    else if c = 51 ∨ c = 52 ∨ c = 53 then none
    else if c = 74 ∨ c = 77 ∨ c = 80 ∨ c = 90 ∨ c = 95 ∨ c = 112 then none
    else if c = 46 ∨ c = 44 then none
    else if c = 45 then
      match rest with
      | 48 :: 55 :: _ => none
      | _ => (appendFormat t rest).map (c :: ·)
    else (appendFormat t rest).map (c :: ·)

/-- Method `Time.Format`. -/
def Time.Format (t : Time) (layout : Bytes) : Option Bytes :=
  appendFormat t layout


/-! ## Package `net/url` -/

/-- Function `ishex`. -/
def ishex (c : UInt8) : Bool :=
  (48 ≤ c ∧ c ≤ 57) ∨ (97 ≤ c ∧ c ≤ 102) ∨ (65 ≤ c ∧ c ≤ 70)

/-- Function `unhex`: the value of a hexadecimal digit. -/
def unhex (c : UInt8) : UInt8 :=
  if 48 ≤ c ∧ c ≤ 57 then c - 48
  else if 97 ≤ c ∧ c ≤ 102 then c - 97 + 10
  else if 65 ≤ c ∧ c ≤ 70 then c - 65 + 10
  else 0

/-- Constant `upperhex`, indexed: the upper-case hexadecimal digit of a value
below 16. -/
def upperhex (n : UInt8) : UInt8 :=
  if n < 10 then 48 + n else 65 + (n - 10)

/-- Function `shouldEscape` in mode `encodePath`: letters, digits and
`- _ . ~` are never escaped; of the reserved bytes `$ & + , / : ; = ? @` only
`?` is; every other byte is. -/
def shouldEscape (c : UInt8) : Bool :=
  if (97 ≤ c ∧ c ≤ 122) ∨ (65 ≤ c ∧ c ≤ 90) ∨ (48 ≤ c ∧ c ≤ 57) then false
  else if c = 45 ∨ c = 95 ∨ c = 46 ∨ c = 126 then false
  else if c = 36 ∨ c = 38 ∨ c = 43 ∨ c = 44 ∨ c = 47 ∨ c = 58 ∨ c = 59 ∨ c = 61 ∨ c = 63 ∨
      c = 64 then decide (c = 63)
  else true

/-- Function `unescape` in the path modes: every `%` must be followed by two
hexadecimal digits and stands for the byte they denote; `none` is the error
result.  Byte 37 is `%`. -/
def unescape : Bytes → Option Bytes
  | [] => some []
  | [c] => if c = 37 then none else some [c]
  | [c, d] => if c = 37 then none else (unescape [d]).map (c :: ·)
  | c :: d :: e :: rest =>
    if c = 37 then
      if ishex d ∧ ishex e then (unescape rest).map ((unhex d <<< 4 ||| unhex e) :: ·) else none
    else (unescape (d :: e :: rest)).map (c :: ·)

/-- Function `escape` in mode `encodePath`. -/
def escape : Bytes → Bytes
  | [] => []
  | c :: rest =>
    if shouldEscape c then 37 :: upperhex (c >>> 4) :: upperhex (c &&& 15) :: escape rest
    else c :: escape rest

/-- Function `validEncoded` in mode `encodePath`: the bytes
`! $ & ' ( ) * + , ; = : @ [ ] %` are accepted, any other byte if it need not
be escaped. -/
def validEncoded (s : Bytes) : Bool :=
  s.all fun c =>
    if c = 33 ∨ c = 36 ∨ c = 38 ∨ c = 39 ∨ c = 40 ∨ c = 41 ∨ c = 42 ∨ c = 43 ∨ c = 44 ∨ c = 59 ∨
        c = 61 ∨ c = 58 ∨ c = 64 then true
    else if c = 91 ∨ c = 93 then true
    else if c = 37 then true
    else !shouldEscape c

/-- Type `url.URL`, the fields the multiplexer and the handlers read: `Path`
is the decoded path, `RawPath` the optional hint of its encoding. -/
structure URL where
  Host : Bytes
  Path : Bytes
  RawPath : Bytes
  RawQuery : Bytes
  deriving DecidableEq, Repr

/-- Method `URL.EscapedPath`: `RawPath` when it is a valid encoding of `Path`,
else the default encoding of `Path`. -/
def URL.EscapedPath (u : URL) : Bytes :=
  if u.RawPath ≠ [] ∧ validEncoded u.RawPath ∧ unescape u.RawPath = some u.Path then u.RawPath
  else if u.Path = utf8 "*" then utf8 "*"
  else escape u.Path

/-- What `url.ParseRequestURI` guarantees about a URL it returns: the path is
empty, `*`, or begins with `/`, and a raw path, when recorded, begins with
`/`. -/
def URL.parsed (u : URL) : Prop :=
  (u.Path = [] ∨ u.Path = utf8 "*" ∨ utf8 "/" <+: u.Path) ∧
    (u.RawPath = [] ∨ utf8 "/" <+: u.RawPath)

instance (u : URL) : Decidable u.parsed := by
  unfold URL.parsed; infer_instance

/-- Type `http.Request` as the server hands it to the multiplexer: the fields
the multiplexer and the handlers read, with the guarantees of the request
parser (`http.ReadRequest`): the URL is a parsed one, and the request target
`*` (as in `OPTIONS *`) has the URL path `*`. -/
structure Request where
  Method : Bytes
  Host : Bytes
  RequestURI : Bytes
  URL : URL
  parsed : URL.parsed ∧ (RequestURI = utf8 "*" → URL.Path = utf8 "*")

/-- An `http.ResponseWriter` on which no status was set explicitly: the bytes
written to the response body so far. -/
structure ResponseWriter where
  body : Bytes
  deriving DecidableEq, Repr

/-- Function `fmt.Fprintf` on a response writer: the formatted bytes are
appended to the body. -/
def Fprintf (w : ResponseWriter) (format : Bytes) (args : List Bytes) :
    Except Fault ResponseWriter :=
  match Sprintf format args with
  | some b => .ok { body := w.body ++ b }
  | none => .error .unmodelled

/-! ## The handlers of `main.go` -/

/-- Handler for the home route (`main.go`, lines 10-13); `now` is the value of
`time.Now()`. -/
def homeHandler (now : Time) (w : ResponseWriter) (_r : Request) :
    Except Fault ResponseWriter := do
  let w ← Fprintf w (utf8 "Welcome to my Go server! 🚀\n") []
  match now.Format (utf8 "2006-01-02 15:04:05") with
  | some ts => Fprintf w (utf8 "Current time: %s\n") [ts]
  | none => .error .unmodelled

/-- Handler for the greet route (`main.go`, lines 16-24). -/
def greetHandler (w : ResponseWriter) (r : Request) : Except Fault ResponseWriter := do
  let name ← sliceFrom r.URL.Path (utf8 "/greet/").length
  if name = utf8 "" then
    Fprintf w (utf8 "Hello, stranger! 👋\n") []
  else
    Fprintf w (utf8 "Hello, %s! 👋\n") [name]

/-- Handler for the about route (`main.go`, lines 27-30). -/
def aboutHandler (w : ResponseWriter) (_r : Request) : Except Fault ResponseWriter := do
  let w ← Fprintf w (utf8 "This is a simple Go web server\n") []
  Fprintf w (utf8 "Built by a beginner learning Go!\n") []

/-! ## Package `path` -/

/-- The backtracking loop of `path.Clean` on a `..` element: starting from
write index `w`, step back while `w > dotdot` and the byte at `w` is not `/`
(byte 47). -/
def backtrack (out : Bytes) (dotdot : Nat) : Nat → Nat
  | 0 => 0
  | w + 1 => if w + 1 > dotdot ∧ out.getD (w + 1) 0 ≠ 47 then backtrack out dotdot w else w + 1

/-- The main loop of `path.Clean`: `rest` is the unread input `path[r:]`, `out`
the output buffer, `dotdot` the index up to which `..` may not backtrack.  Byte
47 is `/`, byte 46 is `.`.  Every iteration reads at least one byte. -/
def cleanLoop (rooted : Bool) (rest : Bytes) (out : Bytes) (dotdot : Nat) : Bytes :=
  match rest with
  | [] => out
  | c :: tl =>
    if c = 47 then
      -- empty path element
      cleanLoop rooted tl out dotdot
    else if c = 46 ∧ (tl = [] ∨ tl.head? = some 47) then
      -- . element
      cleanLoop rooted tl out dotdot
    else if c = 46 ∧ tl.head? = some 46 ∧ (tl.tail = [] ∨ tl.tail.head? = some 47) then
      -- .. element: remove to last /
      if out.length > dotdot then
        cleanLoop rooted tl.tail (out.take (backtrack out dotdot (out.length - 1))) dotdot
      else if !rooted then
        let out1 := (if out.length > 0 then out ++ [47] else out) ++ [46, 46]
        cleanLoop rooted tl.tail out1 out1.length
      else
        cleanLoop rooted tl.tail out dotdot
    else
      -- real path element: add slash if needed, copy element
      let out1 := if (rooted ∧ out.length ≠ 1) ∨ (!rooted ∧ out.length ≠ 0) then out ++ [47] else out
      cleanLoop rooted (tl.dropWhile (· ≠ 47)) (out1 ++ c :: tl.takeWhile (· ≠ 47)) dotdot
termination_by rest.length
decreasing_by
  all_goals simp_wf
  all_goals first
    | omega
    | exact Nat.lt_succ_of_le (List.dropWhile_sublist _).length_le

/-- Function `path.Clean`: the shortest path name equivalent to `path` by
purely lexical processing. -/
def Clean (path : Bytes) : Bytes :=
  if path = [] then [46]
  else
    let rooted := path.head? = some 47
    let out := if rooted then cleanLoop true path.tail [47] 1 else cleanLoop false path [] 0
    if out = [] then [46] else out

/-- Function `cleanPath` of `net/http`: the canonical path for `p`, eliminating
`.` and `..` elements and repeated slashes, keeping a trailing slash. -/
def cleanPath (p : Bytes) : Bytes :=
  if p = [] then [47]
  else
    let p := if p.head? ≠ some 47 then 47 :: p else p
    let np := Clean p
    if p.getLast? = some 47 ∧ np ≠ [47] then
      if p.length = np.length + 1 ∧ np <+: p then p else np ++ [47]
    else np


/-! ## Package `net/http`: the request multiplexer -/

/-- The three handler functions that `main.go` defines. -/
inductive HandlerFn where
  | homeHandler
  | greetHandler
  | aboutHandler
  deriving DecidableEq, Repr

/-- The URL a redirect handler of the multiplexer points to:
`url.URL{Path: ..., RawQuery: ...}`. -/
structure Target where
  Path : Bytes
  RawQuery : Bytes
  deriving DecidableEq, Repr

/-- An `http.Handler` as the multiplexer can return it: a handler function of
the program, the redirect handler `RedirectHandler(u.String(), code)`, or
`NotFoundHandler()`. -/
inductive Handler where
  | func (f : HandlerFn)
  | redirect (u : Target) (code : Nat)
  | notFound
  deriving DecidableEq, Repr

/-- The parts of `net/http` that the multiplexer is parameterised by: the
function `stripHostPort` and the status code of the redirects that the
multiplexer issues (a constant of the library). -/
structure Lib where
  stripHostPort : Bytes → Bytes
  redirectStatus : Nat

/-- Type `segment` of a pattern: a literal `s`, or the multi wildcard that a
trailing slash stands for. -/
structure segment where
  s : Bytes
  wild : Bool
  multi : Bool
  deriving DecidableEq, Repr

/-- Type `pattern`, for patterns without method and host: the pattern string
and its segments. -/
structure pattern where
  str : Bytes
  segments : List segment
  deriving DecidableEq, Repr

/-- Function `pathUnescape` of `net/http`: the decoded form, or the argument
itself when it is not validly escaped. -/
def pathUnescape (path : Bytes) : Bytes :=
  match unescape path with
  | some u => u
  | none => path

/-- The bytes of `path` before its first `/` (all of it when there is none):
`path[:i]` for `i := strings.IndexByte(path, '/')`, or `len(path)` when that is
negative. -/
def beforeSlash (path : Bytes) : Bytes := path.takeWhile (· ≠ 47)

/-- The bytes of `path` from its first `/` on: `path[i:]`. -/
def fromSlash (path : Bytes) : Bytes := path.dropWhile (· ≠ 47)

/-- The segment loop of `parsePattern`: `rest` is empty or begins with `/`;
a trailing slash yields the multi wildcard, any other segment a literal. -/
def parseSegments (rest : Bytes) : List segment :=
  match rest with
  | [] => []
  | _ :: tl =>
    if tl = [] then [{ s := [], wild := true, multi := true }]
    else
      { s := pathUnescape (beforeSlash tl), wild := false, multi := false } ::
        parseSegments (fromSlash tl)
termination_by rest.length
decreasing_by
  simp_wf
  exact Nat.lt_succ_of_le (List.dropWhile_sublist _).length_le

/-- Fragment of `parsePattern`: patterns that name neither a method nor a host
and use no wildcard, that is, patterns that begin with `/` and contain no
space, tab or `{`.  An empty pattern is an error (`Fault.invalidPattern`); any
other pattern outside the fragment is `Fault.unmodelled`.  Bytes: space 32,
tab 9, `{` 123, `/` 47. -/
def parsePattern (s : Bytes) : Except Fault pattern :=
  if s = [] then .error .invalidPattern
  else if 32 ∈ s ∨ 9 ∈ s ∨ 123 ∈ s ∨ s.head? ≠ some 47 then .error .unmodelled
  else .ok { str := s, segments := parseSegments s }

/-- Type `routingNode`: a leaf holds the pattern and the handler registered
with it; an interior node maps the next segment to a child, `multiChild` being
the child for a multi wildcard and `emptyChild` the child for the key `""`. -/
inductive routingNode where
  | mk (leaf : Option (pattern × Handler)) (children : List (Bytes × routingNode))
      (multiChild : Option routingNode) (emptyChild : Option routingNode)

/-- The pattern and handler of a leaf. -/
def routingNode.leaf : routingNode → Option (pattern × Handler)
  | .mk l _ _ _ => l

/-- The children keyed by a non-empty string. -/
def routingNode.children : routingNode → List (Bytes × routingNode)
  | .mk _ c _ _ => c

/-- The child for a multi wildcard. -/
def routingNode.multiChild : routingNode → Option routingNode
  | .mk _ _ m _ => m

/-- The child for the key `""`. -/
def routingNode.emptyChild : routingNode → Option routingNode
  | .mk _ _ _ e => e

/-- The zero value `routingNode{}`. -/
def routingNode.empty : routingNode := .mk none [] none none

/-- Method `routingNode.findChild`. -/
def routingNode.findChild (n : routingNode) (key : Bytes) : Option routingNode :=
  if key = [] then n.emptyChild
  else (n.children.find? (fun kv => kv.1 = key)).map (·.2)

/-- Replace the child that `addChild` returned by its updated value `c`. -/
def routingNode.setChild (n : routingNode) (key : Bytes) (c : routingNode) : routingNode :=
  if key = [] then .mk n.leaf n.children n.multiChild (some c)
  else if (n.children.find? (fun kv => kv.1 = key)).isSome then
    .mk n.leaf (n.children.map (fun kv => if kv.1 = key then (key, c) else kv)) n.multiChild
      n.emptyChild
  else .mk n.leaf (n.children ++ [(key, c)]) n.multiChild n.emptyChild

/-- Method `routingNode.addSegments`: add the pattern under `n`, one tree
level per segment; the node returned is `n` after the update. -/
def routingNode.addSegments (n : routingNode) (segs : List segment) (p : pattern)
    (h : Handler) : routingNode :=
  match segs with
  | [] => .mk (some (p, h)) n.children n.multiChild n.emptyChild
  | seg :: segs =>
    if seg.multi then
      .mk n.leaf n.children (some (.mk (some (p, h)) [] none none)) n.emptyChild
    else if seg.wild then
      n.setChild [] (((n.findChild []).getD .empty).addSegments segs p h)
    else
      n.setChild seg.s (((n.findChild seg.s).getD .empty).addSegments segs p h)

/-- Method `routingNode.addPattern`: the first level of the tree is the host,
the second the method (both `""` here), the remaining levels the path. -/
def routingNode.addPattern (root : routingNode) (p : pattern) (h : Handler) : routingNode :=
  let hostNode := (root.findChild []).getD .empty
  let methodNode := (hostNode.findChild []).getD .empty
  root.setChild [] (hostNode.setChild [] (methodNode.addSegments p.segments p h))

/-- Function `firstSegment`: the first segment of a path that begins with `/`,
decoded, and the rest; for the path `/` the segment is `/`. -/
def firstSegment (path : Bytes) : Bytes × Bytes :=
  if path = [47] then ([47], [])
  else (pathUnescape (beforeSlash (path.drop 1)), fromSlash (path.drop 1))

/-- Method `routingNode.matchPath`: the leaf under `n` that matches `path`;
a literal child is tried first, then the single-wildcard child (unless the
segment is a trailing slash), then the multi-wildcard child.  The wildcard
values that Go collects alongside are left out: no pattern here names one. -/
def matchPath (n : Option routingNode) (path : Bytes) : Option routingNode :=
  match n with
  | none => none
  | some n =>
    if _h : path = [] then
      if n.leaf.isNone then none else some n
    else
      match matchPath (n.findChild (firstSegment path).1) (firstSegment path).2 with
      | some l => some l
      | none =>
        match (if (firstSegment path).1 ≠ [47] then
            matchPath n.emptyChild (firstSegment path).2 else none) with
        | some l => some l
        | none => n.multiChild
termination_by path.length
decreasing_by
  all_goals simp_wf
  all_goals
    unfold firstSegment
    split
    · subst_vars; simp
    · cases path with
      | nil => contradiction
      | cons c tl =>
        simp only [List.drop_succ_cons, List.drop_zero, List.length_cons]
        exact Nat.lt_succ_of_le (List.dropWhile_sublist _).length_le

/-- Method `routingNode.matchMethodAndPath`: patterns for exactly the method
first, for `GET` when the method is `HEAD`, then patterns without method. -/
def matchMethodAndPath (n : Option routingNode) (method path : Bytes) : Option routingNode :=
  match n with
  | none => none
  | some n =>
    match matchPath (n.findChild method) path with
    | some l => some l
    | none =>
      match (if method = utf8 "HEAD" then matchPath (n.findChild (utf8 "GET")) path
          else none) with
      | some l => some l
      | none => matchPath n.emptyChild path

/-- Method `routingNode.match`: patterns for the host first, then patterns
without host. -/
def routingNode.matchRequest (root : routingNode) (host method path : Bytes) :
    Option routingNode :=
  match (if host ≠ [] then matchMethodAndPath (root.findChild host) method path else none) with
  | some l => some l
  | none => matchMethodAndPath root.emptyChild method path

/-- Function `exactMatch`: whether the node's pattern matches the path with no
non-empty multi-wildcard match. -/
def exactMatch (n : Option routingNode) (path : Bytes) : Bool :=
  match n with
  | none => false
  | some n =>
    match n.leaf with
    | none => false
    | some (p, _) =>
      if (p.segments.getLast?.map (·.multi)) ≠ some true then true
      else if path ≠ [] ∧ path.getLast? ≠ some 47 then false
      else decide (p.segments.length = path.count 47)

/-- Type `http.ServeMux`: the routing tree and the registered patterns (the
index that conflict detection consults). -/
structure ServeMux where
  tree : routingNode
  patterns : List pattern

/-- Method `ServeMux.register`: parse the pattern, panic if it conflicts with
a registered one, else add it to the tree.  Two patterns of the fragment
conflict exactly when they have the same segments. -/
def ServeMux.register (mux : ServeMux) (patstr : Bytes) (handler : Handler) :
    Except Fault ServeMux := do
  let pat ← parsePattern patstr
  if mux.patterns.any (fun p => p.segments = pat.segments) then .error .invalidPattern
  else pure { tree := mux.tree.addPattern pat handler, patterns := mux.patterns ++ [pat] }

/-- Method `ServeMux.HandleFunc`. -/
def ServeMux.HandleFunc (mux : ServeMux) (pattern : Bytes) (handler : HandlerFn) :
    Except Fault ServeMux :=
  mux.register pattern (.func handler)

/-- Method `ServeMux.matchOrRedirect`: the matching leaf, or, when `u` is given
and the path has no exact match but the path with a slash appended has one,
the URL to redirect to. -/
def ServeMux.matchOrRedirect (mux : ServeMux) (host method path : Bytes) (u : Option URL) :
    Option routingNode × Option Target :=
  let n := mux.tree.matchRequest host method path
  match u with
  | none => (n, none)
  | some u =>
    if !exactMatch n path ∧ path.getLast? ≠ some 47 ∧
        exactMatch (mux.tree.matchRequest host method (path ++ [47])) (path ++ [47]) then
      (none, some { Path := cleanPath u.Path ++ [47], RawQuery := u.RawQuery })
    else (n, none)

/-- The handler and pattern string of a matched leaf; without a match, the
not-found handler (no pattern names a method, so the method-not-allowed
answer never arises). -/
def leafHandler (n : Option routingNode) : Handler × Bytes :=
  match n.bind (·.leaf) with
  | some (p, h) => (h, p.str)
  | none => (.notFound, [])

/-- Method `ServeMux.findHandler`: the handler for the request and the pattern
that matched, or a redirect handler, or the not-found handler.  Matching is
on the escaped path. -/
def ServeMux.findHandler (mux : ServeMux) (lib : Lib) (r : Request) : Handler × Bytes :=
  let escapedPath := r.URL.EscapedPath
  if r.Method = utf8 "CONNECT" then
    -- CONNECT requests are not canonicalized.
    match (mux.matchOrRedirect r.URL.Host r.Method escapedPath (some r.URL)).2 with
    | some u => (.redirect u lib.redirectStatus, u.Path)
    | none => leafHandler (mux.matchOrRedirect r.Host r.Method escapedPath none).1
  else
    -- All other requests have any port stripped and path cleaned.
    let host := lib.stripHostPort r.Host
    let path := cleanPath escapedPath
    let nu := mux.matchOrRedirect host r.Method path (some r.URL)
    match nu.2 with
    | some u => (.redirect u lib.redirectStatus, u.Path)
    | none =>
      if path ≠ escapedPath then
        (.redirect { Path := path, RawQuery := r.URL.RawQuery } lib.redirectStatus,
          match nu.1.bind (·.leaf) with
          | some (p, _) => p.str
          | none => [])
      else leafHandler nu.1

/-- Method `ServeMux.Handler`. -/
def ServeMux.Handler (mux : ServeMux) (lib : Lib) (r : Request) : GoCapstone.Handler × Bytes :=
  mux.findHandler lib r

/-- What the server sends for one request. -/
inductive Response where
  /-- Status 200 with the body that is sent. -/
  | ok (body : Bytes)
  /-- The response of `http.Redirect` to `u` with status `code`. -/
  | redirect (u : Target) (code : Nat)
  /-- The response of `http.NotFound`: status 404. -/
  | notFound
  /-- Status 400. -/
  | badRequest
  /-- The handler panicked: the server drops the connection. -/
  | aborted (f : Fault)
  deriving DecidableEq, Repr

/-- Run a handler function of the program on a fresh response writer. -/
def HandlerFn.ServeHTTP (f : HandlerFn) (now : Time) (r : Request) :
    Except Fault ResponseWriter :=
  match f with
  | .homeHandler => GoCapstone.homeHandler now { body := [] } r
  | .greetHandler => GoCapstone.greetHandler { body := [] } r
  | .aboutHandler => GoCapstone.aboutHandler { body := [] } r

/-- Method `ServeMux.ServeHTTP`: dispatch the request to the handler whose
pattern most closely matches the request URL; `now` is the reading of the wall
clock while the request is handled.  For a `HEAD` request the server sends the
status and headers only: what the handler writes to the body is discarded. -/
def ServeMux.ServeHTTP (mux : ServeMux) (lib : Lib) (now : Time) (r : Request) : Response :=
  if r.RequestURI = utf8 "*" then .badRequest
  else
    match (mux.Handler lib r).1 with
    | .func f =>
      match f.ServeHTTP now r with
      | .ok w => .ok (if r.Method = utf8 "HEAD" then [] else w.body)
      | .error e => .aborted e
    | .redirect u code => .redirect u code
    | .notFound => .notFound

/-! ## Function `main` -/

/-- An observable action of the process. -/
inductive Event where
  /-- Bytes written to standard output by one call of `fmt.Println`. -/
  | stdout (b : Bytes)
  /-- A call of `http.ListenAndServe(addr, nil)`. -/
  | listenAndServe (addr : Bytes)
  deriving DecidableEq, Repr

/-- Whether an action is a call of `http.ListenAndServe`. -/
def Event.isListen : Event → Bool
  | .listenAndServe _ => true
  | .stdout _ => false

/-- The state of the process: the package-level `http.DefaultServeMux` and the
actions performed so far, oldest first. -/
structure World where
  DefaultServeMux : ServeMux
  trace : List Event

/-- The state at process start. -/
def World.start : World :=
  { DefaultServeMux := { tree := .empty, patterns := [] }, trace := [] }

/-- Function `fmt.Println` writing to standard output. -/
def World.Println (w : World) (args : List Bytes) : World :=
  { w with trace := w.trace ++ [.stdout (GoCapstone.Println args)] }

/-- Function `http.HandleFunc`: register on `DefaultServeMux`. -/
def World.HandleFunc (w : World) (pattern : Bytes) (handler : HandlerFn) : Except Fault World := do
  let mux ← w.DefaultServeMux.HandleFunc pattern handler
  pure { w with DefaultServeMux := mux }

/-- Function `http.ListenAndServe` with a nil handler: the call is recorded;
its result is supplied by the environment. -/
def World.ListenAndServe (w : World) (addr : Bytes) : World :=
  { w with trace := w.trace ++ [.listenAndServe addr] }

/-- Function `main` (`main.go`, lines 32-57).  `err` is what the call of
`http.ListenAndServe` returns: `none` for nil, `some e` for an error whose
message is `e`. -/
def main (err : Option Bytes) : Except Fault World := do
  let w := World.start
  -- First: Print Hello World to console
  let w := w.Println [utf8 "Hello, World! This is my first Go program!"]
  let w := w.Println [utf8 "I'm learning Go programming! 🚀"]
  let w := w.Println []
  -- Second: Start the HTTP server; register route handlers
  let w ← w.HandleFunc (utf8 "/") .homeHandler
  let w ← w.HandleFunc (utf8 "/greet/") .greetHandler
  let w ← w.HandleFunc (utf8 "/about") .aboutHandler
  -- Display startup information
  let w := w.Println [utf8 "🚀 Server starting on http://localhost:8080"]
  let w := w.Println [utf8 "📍 Try these endpoints:"]
  let w := w.Println [utf8 "   - http://localhost:8080"]
  let w := w.Println [utf8 "   - http://localhost:8080/greet/YourName"]
  let w := w.Println [utf8 "   - http://localhost:8080/about"]
  let w := w.Println [utf8 "\nPress Ctrl+C to stop the server"]
  -- Start the server
  let w := w.ListenAndServe (utf8 ":8080")
  match err with
  | some e => pure (w.Println [utf8 "❌ Error starting server:", e])
  | none => pure w

/-- The server handles one request in state `w` while the clock reads `now`:
the response, and the state afterwards.  The multiplexer only reads the route
table, and no handler of `main.go` assigns a package-level variable, registers
a route or prints: the state afterwards is `w`. -/
def World.serve (w : World) (lib : Lib) (now : Time) (r : Request) : Response × World :=
  (w.DefaultServeMux.ServeHTTP lib now r, w)

/-- The server handles a sequence of requests, one after the other, each at
its own clock reading: the responses in order, and the state afterwards. -/
def World.serveAll (w : World) (lib : Lib) : List (Time × Request) → List Response × World
  | [] => ([], w)
  | (now, r) :: rest =>
    let (resp, w₁) := w.serve lib now r
    let (resps, w₂) := w₁.serveAll lib rest
    (resp :: resps, w₂)

/-- The leaf for the pattern `/`. -/
def homeLeaf : routingNode :=
  .mk (some (⟨utf8 "/", [⟨[], true, true⟩]⟩, .func .homeHandler)) [] none none

/-- The leaf for the pattern `/greet/`. -/
def greetLeaf : routingNode :=
  .mk (some (⟨utf8 "/greet/", [⟨utf8 "greet", false, false⟩, ⟨[], true, true⟩]⟩,
    .func .greetHandler)) [] none none

/-- The leaf for the pattern `/about`. -/
def aboutLeaf : routingNode :=
  .mk (some (⟨utf8 "/about", [⟨utf8 "about", false, false⟩]⟩, .func .aboutHandler)) [] none none

/-- The path level of the routing tree that `main` builds: the children
`greet` and `about`, and the multi-wildcard child for `/`. -/
def pathNode : routingNode :=
  .mk none [(utf8 "greet", .mk none [] (some greetLeaf) none), (utf8 "about", aboutLeaf)]
    (some homeLeaf) none

/-- The multiplexer state that the three registrations of `main` produce (see
`main_eq`): a name for the route table, used to state auxiliary facts. -/
def registeredMux : ServeMux :=
  { tree := .mk none [] none (some (.mk none [] none (some pathNode)))
    patterns := [⟨utf8 "/", [⟨[], true, true⟩]⟩,
      ⟨utf8 "/greet/", [⟨utf8 "greet", false, false⟩, ⟨[], true, true⟩]⟩,
      ⟨utf8 "/about", [⟨utf8 "about", false, false⟩]⟩] }

/-- The lines that `main` prints before it starts the server, one entry per
call of `fmt.Println`. -/
def startupOutput : List Bytes :=
  [utf8 "Hello, World! This is my first Go program!\n",
   utf8 "I'm learning Go programming! 🚀\n",
   utf8 "\n",
   utf8 "🚀 Server starting on http://localhost:8080\n",
   utf8 "📍 Try these endpoints:\n",
   utf8 "   - http://localhost:8080\n",
   utf8 "   - http://localhost:8080/greet/YourName\n",
   utf8 "   - http://localhost:8080/about\n",
   utf8 "\nPress Ctrl+C to stop the server\n"]

/-! ## Auxiliary facts: the bytes of the string literals -/

theorem lit_empty : utf8 "" = [] := by decide

theorem lit_greet : utf8 "/greet/" = [47, 103, 114, 101, 101, 116, 47] := by decide

theorem lit_greetNoSlash : utf8 "/greet" = [47, 103, 114, 101, 101, 116] := by decide

theorem lit_about : utf8 "/about" = [47, 97, 98, 111, 117, 116] := by decide

theorem lit_root : utf8 "/" = [47] := by decide

theorem lit_hello : utf8 "Hello, " = [72, 101, 108, 108, 111, 44, 32] := by decide

theorem lit_wave : utf8 "! 👋\n" = [33, 32, 240, 159, 145, 139, 10] := by decide

theorem lit_helloFmt : utf8 "Hello, %s! 👋\n" =
    [72, 101, 108, 108, 111, 44, 32, 37, 115, 33, 32, 240, 159, 145, 139, 10] := by decide

theorem lit_timeFmt : utf8 "Current time: %s\n" =
    [67, 117, 114, 114, 101, 110, 116, 32, 116, 105, 109, 101, 58, 32, 37, 115, 10] := by decide

theorem lit_timePre : utf8 "Current time: " =
    [67, 117, 114, 114, 101, 110, 116, 32, 116, 105, 109, 101, 58, 32] := by decide

theorem lit_layout : utf8 "2006-01-02 15:04:05" =
    [50, 48, 48, 54, 45, 48, 49, 45, 48, 50, 32, 49, 53, 58, 48, 52, 58, 48, 53] := by decide

/-! ## Auxiliary facts: `fmt` -/

/-- A format without `%` and without operands is written as it stands. -/
theorem Sprintf_literal (s : Bytes) (h : (37 : UInt8) ∉ s) : Sprintf s [] = some s := by
  induction s with
  | nil => simp [Sprintf]
  | cons c rest ih =>
    have hc : c ≠ 37 := fun e => h (by simp [e])
    have hr : (37 : UInt8) ∉ rest := fun e => h (by simp [e])
    cases rest with
    | nil => simp [Sprintf, hc]
    | cons d rest =>
      rw [Sprintf]
      simp [hc, ih hr]

/-- The greeting format with one operand: the operand is copied between the
two literal parts, whatever bytes it holds. -/
theorem Sprintf_hello (name : Bytes) :
    Sprintf (utf8 "Hello, %s! 👋\n") [name] = some (utf8 "Hello, " ++ name ++ utf8 "! 👋\n") := by
  rw [lit_helloFmt, lit_hello, lit_wave]
  simp [Sprintf]

/-- The time line format with one operand. -/
theorem Sprintf_time (ts : Bytes) :
    Sprintf (utf8 "Current time: %s\n") [ts] = some (utf8 "Current time: " ++ ts ++ [10]) := by
  rw [lit_timeFmt, lit_timePre]
  simp [Sprintf]

/-- Writing a literal format appends it to the body. -/
theorem Fprintf_literal (w : ResponseWriter) (s : Bytes) (h : (37 : UInt8) ∉ s) :
    Fprintf w s [] = .ok { body := w.body ++ s } := by
  simp [Fprintf, Sprintf_literal s h]

/-- The greet handler on a path that has the prefix `/greet/`: the slice is in
bounds and the body depends on the remainder alone. -/
theorem greetHandler_eq (w : ResponseWriter) (r : Request) (name : Bytes)
    (hp : r.URL.Path = utf8 "/greet/" ++ name) :
    greetHandler w r = .ok { body := w.body ++
      (if name = [] then utf8 "Hello, stranger! 👋\n"
        else utf8 "Hello, " ++ name ++ utf8 "! 👋\n") } := by
  have hlen : (utf8 "/greet/").length = 7 := by decide
  have hpct : (37 : UInt8) ∉ utf8 "Hello, stranger! 👋\n" := by decide
  by_cases hn : name = []
  · simp [greetHandler, sliceFrom, hp, hlen, lit_empty, hn, Fprintf_literal _ _ hpct, bind,
      Except.bind]
  · simp [greetHandler, sliceFrom, hp, hlen, lit_empty, hn, Fprintf, Sprintf_hello, bind,
      Except.bind]

/-! ## Auxiliary facts: `time` -/

/-- The layout of `homeHandler` applied to a valid clock reading. -/
theorem Format_valid (t : Time) (h : t.valid) :
    t.Format (utf8 "2006-01-02 15:04:05") = some
      [utod (t.year.toNat / 1000), utod (t.year.toNat / 100 % 10),
       utod (t.year.toNat / 10 % 10), utod (t.year.toNat % 10), 45,
       utod (t.month / 10), utod (t.month % 10), 45,
       utod (t.day / 10), utod (t.day % 10), 32,
       utod (t.hour / 10), utod (t.hour % 10), 58,
       utod (t.min / 10), utod (t.min % 10), 58,
       utod (t.sec / 10), utod (t.sec % 10)] := by
  obtain ⟨h1, h2, h3, h4, h5, h6, h7, h8, h9⟩ := h
  have e1 : ¬ t.year < 0 := by omega
  have f1 : t.year.natAbs < 10000 := by omega
  have g1 : t.year.natAbs = t.year.toNat := by omega
  have f2 : t.month < 100 := by omega
  have f3 : t.day < 100 := by omega
  have f4 : t.hour < 100 := by omega
  have f5 : t.min < 100 := by omega
  have f6 : t.sec < 100 := by omega
  have e2 : ¬ ((t.month : Int) < 0) := by omega
  have e3 : ¬ ((t.day : Int) < 0) := by omega
  have e4 : ¬ ((t.hour : Int) < 0) := by omega
  have e5 : ¬ ((t.min : Int) < 0) := by omega
  have e6 : ¬ ((t.sec : Int) < 0) := by omega
  have f1t : t.year.toNat < 10000 := by omega
  rw [lit_layout]
  simp [Time.Format, appendFormat, appendInt, e1, e2, e3, e4, e5, e6, f1t, f2, f3, f4, f5, f6, g1]

/-- Distinct decimal digits have distinct bytes. -/
theorem utod_inj (a b : Nat) (ha : a < 10) (hb : b < 10) (h : utod a = utod b) : a = b := by
  interval_cases a <;> interval_cases b <;> first
    | rfl
    | (exfalso; revert h; decide)

/-- The home handler on a valid clock reading. -/
theorem homeHandler_eq (now : Time) (hv : now.valid) (w : ResponseWriter) (r : Request) :
    homeHandler now w r = .ok ⟨w.body ++ utf8 "Welcome to my Go server! 🚀\n" ++
      utf8 "Current time: " ++
      [utod (now.year.toNat / 1000), utod (now.year.toNat / 100 % 10),
       utod (now.year.toNat / 10 % 10), utod (now.year.toNat % 10), 45,
       utod (now.month / 10), utod (now.month % 10), 45,
       utod (now.day / 10), utod (now.day % 10), 32,
       utod (now.hour / 10), utod (now.hour % 10), 58,
       utod (now.min / 10), utod (now.min % 10), 58,
       utod (now.sec / 10), utod (now.sec % 10)] ++ utf8 "\n"⟩ := by
  have hpct : (37 : UInt8) ∉ utf8 "Welcome to my Go server! 🚀\n" := by decide
  have hnl : utf8 "\n" = [10] := by decide
  unfold homeHandler
  rw [Fprintf_literal _ _ hpct, Format_valid now hv]
  simp [Fprintf, Sprintf_time, bind, Except.bind, hnl]

/-! ## Auxiliary facts: `main` and the route table -/

/-- The pattern `/` parses to the multi wildcard. -/
theorem parse_root : parsePattern (utf8 "/") = .ok ⟨utf8 "/", [⟨[], true, true⟩]⟩ := by
  rw [lit_root]
  simp [parsePattern, parseSegments]

/-- The pattern `/greet/` parses to the literal `greet` and the multi wildcard. -/
theorem parse_greet : parsePattern (utf8 "/greet/") =
    .ok ⟨utf8 "/greet/", [⟨utf8 "greet", false, false⟩, ⟨[], true, true⟩]⟩ := by
  have h : pathUnescape [103, 114, 101, 101, 116] = utf8 "greet" := by decide
  rw [lit_greet]
  simp [parsePattern, parseSegments, beforeSlash, fromSlash, h]

/-- The pattern `/about` parses to the literal `about`. -/
theorem parse_about : parsePattern (utf8 "/about") =
    .ok ⟨utf8 "/about", [⟨utf8 "about", false, false⟩]⟩ := by
  have h : pathUnescape [97, 98, 111, 117, 116] = utf8 "about" := by decide
  rw [lit_about]
  simp [parsePattern, parseSegments, beforeSlash, fromSlash, h]


/-- Function `main` returns, whatever `http.ListenAndServe` returned; the route
table it leaves is `registeredMux`, and its actions are the startup output, one
call of `http.ListenAndServe` on `:8080` and, after an error, one more line. -/
theorem main_eq (err : Option Bytes) :
    main err = .ok
      { DefaultServeMux := registeredMux
        trace := startupOutput.map Event.stdout ++ [Event.listenAndServe (utf8 ":8080")] ++
          (match err with
           | none => []
           | some e => [Event.stdout (utf8 "❌ Error starting server: " ++ e ++ utf8 "\n")]) } := by
  have hl : ∀ e, Println [utf8 "❌ Error starting server:", e] =
      utf8 "❌ Error starting server: " ++ e ++ utf8 "\n" := by
    intro e
    have h1 : utf8 "❌ Error starting server: " = utf8 "❌ Error starting server:" ++ [32] := by
      decide
    have h2 : utf8 "\n" = [10] := by decide
    simp [Println, List.intercalate, h1, h2]
  cases err with
  | none =>
    unfold main
    simp only [World.HandleFunc, ServeMux.HandleFunc, ServeMux.register, parse_root, parse_greet,
      parse_about, bind, Except.bind, World.start, pure, Except.pure, World.Println,
      World.ListenAndServe]
    rfl
  | some e =>
    show main (some e) = .ok
      { DefaultServeMux := registeredMux
        trace := startupOutput.map Event.stdout ++ [Event.listenAndServe (utf8 ":8080")] ++
          [Event.stdout (utf8 "❌ Error starting server: " ++ e ++ utf8 "\n")] }
    rw [← hl e]
    unfold main
    simp only [World.HandleFunc, ServeMux.HandleFunc, ServeMux.register, parse_root, parse_greet,
      parse_about, bind, Except.bind, World.start, pure, Except.pure, World.Println,
      World.ListenAndServe]
    rfl


/-- The route table that `main` leaves is `registeredMux`. -/
theorem main_mux (err : Option Bytes) (w : World) (h : main err = .ok w) :
    w.DefaultServeMux = registeredMux := by
  rw [main_eq] at h
  cases h
  rfl

/-! ## Auxiliary facts: `net/url` -/

/-- Escaping a byte and reading the two digits back gives the byte. -/
theorem hex_roundtrip (c : UInt8) :
    ishex (upperhex (c >>> 4)) = true ∧ ishex (upperhex (c &&& 15)) = true ∧
      unhex (upperhex (c >>> 4)) <<< 4 ||| unhex (upperhex (c &&& 15)) = c := by
  have h : ∀ n : Fin 256, ishex (upperhex ((UInt8.mk ⟨n⟩) >>> 4)) = true ∧
      ishex (upperhex ((UInt8.mk ⟨n⟩) &&& 15)) = true ∧
      unhex (upperhex ((UInt8.mk ⟨n⟩) >>> 4)) <<< 4 |||
        unhex (upperhex ((UInt8.mk ⟨n⟩) &&& 15)) = UInt8.mk ⟨n⟩ := by
    decide
  obtain ⟨⟨n⟩⟩ := c
  exact h n

/-- A byte other than `%` is copied by `unescape`. -/
theorem unescape_cons (c : UInt8) (rest : Bytes) (hc : c ≠ 37) :
    unescape (c :: rest) = (unescape rest).map (c :: ·) := by
  match rest with
  | [] => simp [unescape, hc]
  | [d] => simp [unescape, hc]
  | d :: e :: rest => rw [unescape]; simp [hc]

/-- An escape triple is decoded to its byte. -/
theorem unescape_triple (d e : UInt8) (rest : Bytes) :
    unescape (37 :: d :: e :: rest) =
      if ishex d ∧ ishex e then (unescape rest).map ((unhex d <<< 4 ||| unhex e) :: ·)
      else none := by
  rw [unescape]; simp

/-- Decoding the default encoding of a path gives the path back. -/
theorem unescape_escape (p : Bytes) : unescape (escape p) = some p := by
  induction p with
  | nil => simp [escape, unescape]
  | cons c rest ih =>
    unfold escape
    by_cases hs : shouldEscape c = true
    · obtain ⟨h1, h2, h3⟩ := hex_roundtrip c
      simp [hs, unescape_triple, h1, h2, h3, ih]
    · have hc : c ≠ 37 := by
        rintro rfl
        exact hs (by decide)
      simp [hs, unescape_cons _ _ hc, ih]

/-- The escaped path decodes to the path. -/
theorem unescape_EscapedPath (u : URL) : unescape u.EscapedPath = some u.Path := by
  unfold URL.EscapedPath
  split_ifs with h1 h2
  · exact h1.2.2
  · rw [h2]; decide
  · exact unescape_escape _

/-- The escaped path of a parsed URL begins with `/` when the path does. -/
theorem EscapedPath_rooted (u : URL) (hu : u.parsed) (hr : utf8 "/" <+: u.Path) :
    utf8 "/" <+: u.EscapedPath := by
  unfold URL.EscapedPath
  split_ifs with h1 h2
  · rcases hu.2 with h | h
    · exact absurd h h1.1
    · exact h
  · rw [h2] at hr
    revert hr; decide
  · rw [lit_root] at hr ⊢
    obtain ⟨t, ht⟩ := hr
    rw [← ht]
    have : shouldEscape 47 = false := by decide
    simp [escape, this]

/-- The escaped path of a parsed URL whose path is empty is empty, and it is
`*` when the path is `*`. -/
theorem EscapedPath_nonrooted (u : URL) (hu : u.parsed)
    (hp : u.Path = [] ∨ u.Path = utf8 "*") : u.EscapedPath = u.Path := by
  have hraw : ¬ (u.RawPath ≠ [] ∧ validEncoded u.RawPath = true ∧
      unescape u.RawPath = some u.Path) := by
    rintro ⟨h1, _, h3⟩
    rcases hu.2 with h | h
    · exact h1 h
    · rw [lit_root] at h
      obtain ⟨t, ht⟩ := h
      rw [← ht] at h3
      have h47 : (47 : UInt8) ≠ 37 := by decide
      rw [List.singleton_append, unescape_cons _ _ h47] at h3
      rcases hp with hp | hp
      · rw [hp] at h3
        cases hun : unescape t <;> simp [hun] at h3
      · rw [hp, show utf8 "*" = [42] from by decide] at h3
        cases hun : unescape t <;> simp [hun] at h3
  unfold URL.EscapedPath
  rw [if_neg hraw]
  rcases hp with hp | hp
  · have : u.Path ≠ utf8 "*" := by rw [hp]; decide
    rw [if_neg this, hp]
    rfl
  · rw [if_pos hp, hp]

/-- Decoding splits at a slash: an escape triple never spans one. -/
theorem unescape_split (r : Bytes) (n : Nat) : ∀ (s P : Bytes), s.length = n →
    unescape (s ++ 47 :: r) = some P →
    ∃ a b, unescape s = some a ∧ unescape (47 :: r) = some (47 :: b) ∧ P = a ++ 47 :: b := by
  have h47 : (47 : UInt8) ≠ 37 := by decide
  induction n using Nat.strong_induction_on with
  | _ n ih =>
    intro s P hn h
    match s, hn with
    | [], _ =>
      rw [List.nil_append, unescape_cons _ _ h47] at h
      cases hun : unescape r with
      | none => simp [hun] at h
      | some b =>
        simp [hun] at h
        exact ⟨[], b, by simp [unescape], by simp [unescape_cons _ _ h47, hun], by simp [h]⟩
    | c :: s', hn =>
      by_cases hc : c = 37
      · subst hc
        match s', hn with
        | [], _ =>
          exfalso
          cases r with
          | nil => simp [unescape] at h
          | cons e r' =>
            have : ishex 47 = false := by decide
            simp [unescape_triple, this] at h
        | [d], _ =>
          exfalso
          have : ishex 47 = false := by decide
          simp [unescape_triple, this] at h
        | d :: e :: s'', hn =>
          simp only [List.cons_append, unescape_triple] at h
          split_ifs at h with hde
          · cases hun : unescape (s'' ++ 47 :: r) with
            | none => simp [hun] at h
            | some Q =>
              simp [hun] at h
              obtain ⟨a, b, ha, hb, hQ⟩ := ih s''.length (by simp at hn; omega) s'' Q rfl hun
              refine ⟨(unhex d <<< 4 ||| unhex e) :: a, b, ?_, hb, ?_⟩
              · simp [unescape_triple, hde, ha]
              · simp [← h, hQ]
      · simp only [List.cons_append, unescape_cons _ _ hc] at h
        cases hun : unescape (s' ++ 47 :: r) with
        | none => simp [hun] at h
        | some Q =>
          simp [hun] at h
          obtain ⟨a, b, ha, hb, hQ⟩ := ih s'.length (by simp at hn; omega) s' Q rfl hun
          refine ⟨c :: a, b, ?_, hb, ?_⟩
          · simp [unescape_cons _ _ hc, ha]
          · simp [← h, hQ]

/-! ## Auxiliary facts: segments of a path -/

/-- A path is its first segment followed by the rest. -/
theorem beforeSlash_append_fromSlash (l : Bytes) : beforeSlash l ++ fromSlash l = l :=
  List.takeWhile_append_dropWhile _ _

/-- What is left after the first segment is empty or begins with `/`. -/
theorem fromSlash_cases (l : Bytes) : fromSlash l = [] ∨ ∃ r, fromSlash l = 47 :: r := by
  induction l with
  | nil => left; rfl
  | cons c tl ih =>
    by_cases hc : c = 47
    · right
      refine ⟨tl, ?_⟩
      subst hc
      rfl
    · have hp : decide (c ≠ 47) = true := decide_eq_true hc
      have : fromSlash (c :: tl) = fromSlash tl := by
        unfold fromSlash
        rw [List.dropWhile_cons, if_pos hp]
      rw [this]
      exact ih

/-- A segment without `/`, followed by a slash, is taken whole. -/
theorem beforeSlash_append (s r : Bytes) (hs : (47 : UInt8) ∉ s) :
    beforeSlash (s ++ 47 :: r) = s ∧ fromSlash (s ++ 47 :: r) = 47 :: r := by
  induction s with
  | nil => exact ⟨rfl, rfl⟩
  | cons c tl ih =>
    have hc : c ≠ 47 := fun e => hs (by simp [e])
    have ht : (47 : UInt8) ∉ tl := fun e => hs (by simp [e])
    have hp : decide (c ≠ 47) = true := decide_eq_true hc
    obtain ⟨h1, h2⟩ := ih ht
    constructor
    · show List.takeWhile _ (c :: (tl ++ 47 :: r)) = _
      rw [List.takeWhile_cons, if_pos hp]
      exact congrArg (c :: ·) h1
    · show List.dropWhile _ (c :: (tl ++ 47 :: r)) = _
      rw [List.dropWhile_cons, if_pos hp]
      exact h2

/-- A path without `/` is one segment. -/
theorem beforeSlash_all (s : Bytes) (hs : (47 : UInt8) ∉ s) :
    beforeSlash s = s ∧ fromSlash s = [] := by
  induction s with
  | nil => exact ⟨rfl, rfl⟩
  | cons c tl ih =>
    have hc : c ≠ 47 := fun e => hs (by simp [e])
    have ht : (47 : UInt8) ∉ tl := fun e => hs (by simp [e])
    have hp : decide (c ≠ 47) = true := decide_eq_true hc
    obtain ⟨h1, h2⟩ := ih ht
    constructor
    · show List.takeWhile _ (c :: tl) = _
      rw [List.takeWhile_cons, if_pos hp]
      exact congrArg (c :: ·) h1
    · show List.dropWhile _ (c :: tl) = _
      rw [List.dropWhile_cons, if_pos hp]
      exact h2

/-- The first segment contains no `/`. -/
theorem beforeSlash_not_mem (l : Bytes) : (47 : UInt8) ∉ beforeSlash l := by
  intro h
  have := List.mem_takeWhile_imp h
  simp at this

/-- When nothing follows the first segment, the path has no `/`. -/
theorem not_mem_of_fromSlash_nil (l : Bytes) (h : fromSlash l = []) : (47 : UInt8) ∉ l := by
  have := beforeSlash_append_fromSlash l
  rw [h, List.append_nil] at this
  rw [← this]
  exact beforeSlash_not_mem l

/-- Function `firstSegment` on a rooted path other than `/`. -/
theorem firstSegment_cons (e : Bytes) (h : e ≠ []) :
    firstSegment (47 :: e) = (pathUnescape (beforeSlash e), fromSlash e) := by
  unfold firstSegment
  have : (47 : UInt8) :: e ≠ [47] := by simpa using h
  rw [if_neg this]
  rfl

/-- The decoded path, from the first segment of the escaped path and what
follows it. -/
theorem path_of_segments (e P : Bytes) (h : unescape (47 :: e) = some P) :
    (fromSlash e = [] → P = 47 :: pathUnescape (beforeSlash e)) ∧
    (fromSlash e ≠ [] → ∃ b, P = 47 :: pathUnescape (beforeSlash e) ++ 47 :: b) := by
  have h47 : (47 : UInt8) ≠ 37 := by decide
  rw [unescape_cons _ _ h47] at h
  cases hun : unescape e with
  | none => simp [hun] at h
  | some Q =>
    simp [hun] at h
    have hsplit := beforeSlash_append_fromSlash e
    constructor
    · intro hd
      rw [hd, List.append_nil] at hsplit
      rw [hsplit]
      simp [pathUnescape, hun, ← h]
    · intro hd
      rcases fromSlash_cases e with hd' | ⟨r, hr⟩
      · exact absurd hd' hd
      · rw [hr] at hsplit
        rw [← hsplit] at hun
        obtain ⟨a, b, ha, _, hQ⟩ := unescape_split r _ _ Q rfl hun
        exact ⟨b, by simp [pathUnescape, ha, ← h, hQ]⟩

/-! ## Auxiliary facts: matching on the routing tree of `main` -/

/-- Nothing matches under a missing node. -/
theorem matchPath_none (p : Bytes) : matchPath none p = none := by
  rw [matchPath]

/-- Matching below the `greet` child: the subtree pattern `/greet/` matches
whatever follows, but not the bare segment. -/
theorem matchPath_greetNode (p : Bytes) :
    matchPath (some (.mk none [] (some greetLeaf) none)) p =
      if p = [] then none else some greetLeaf := by
  rw [matchPath]
  by_cases hp : p = []
  · simp [hp, routingNode.leaf]
  · simp [hp, routingNode.findChild, routingNode.children, routingNode.emptyChild,
      routingNode.multiChild, matchPath_none]

/-- Matching below the `about` child: only the end of the path matches. -/
theorem matchPath_aboutLeaf (p : Bytes) :
    matchPath (some aboutLeaf) p = if p = [] then some aboutLeaf else none := by
  rw [matchPath]
  by_cases hp : p = []
  · simp [hp, aboutLeaf, routingNode.leaf]
  · simp [hp, aboutLeaf, routingNode.findChild, routingNode.children, routingNode.emptyChild,
      routingNode.multiChild, matchPath_none]

/-- Matching on the path level of the tree: by the first segment and whether
anything follows it. -/
theorem matchPath_pathNode (p : Bytes) (hp : p ≠ []) :
    matchPath (some pathNode) p =
      if (firstSegment p).1 = utf8 "greet" then
        (if (firstSegment p).2 = [] then some homeLeaf else some greetLeaf)
      else if (firstSegment p).1 = utf8 "about" then
        (if (firstSegment p).2 = [] then some aboutLeaf else some homeLeaf)
      else some homeLeaf := by
  have hg : utf8 "greet" ≠ [] := by decide
  have ha : utf8 "about" ≠ [] := by decide
  have hag : utf8 "about" ≠ utf8 "greet" := by decide
  have hs : utf8 "greet" ≠ [47] := by decide
  have hs' : utf8 "about" ≠ [47] := by decide
  rw [matchPath]
  simp only [hp, dite_false]
  by_cases h1 : (firstSegment p).1 = utf8 "greet"
  · have hf : pathNode.findChild (firstSegment p).1 = some (.mk none [] (some greetLeaf) none) := by
      rw [h1]
      simp [routingNode.findChild, pathNode, routingNode.children, hg]
    rw [hf, matchPath_greetNode, if_pos h1]
    by_cases h2 : (firstSegment p).2 = []
    · simp [h2, h1, hs, pathNode, routingNode.emptyChild, routingNode.multiChild, matchPath_none]
    · simp [h2]
  · by_cases h3 : (firstSegment p).1 = utf8 "about"
    · have hf : pathNode.findChild (firstSegment p).1 = some aboutLeaf := by
        rw [h3]
        have hga : ¬ utf8 "greet" = utf8 "about" := fun e => hag e.symm
        simp [routingNode.findChild, pathNode, routingNode.children, ha, hga, List.find?]
      rw [hf, matchPath_aboutLeaf, if_neg h1, if_pos h3]
      by_cases h2 : (firstSegment p).2 = []
      · simp [h2]
      · simp [h2, pathNode, routingNode.emptyChild, routingNode.multiChild, matchPath_none]
    · have hf : pathNode.findChild (firstSegment p).1 = none := by
        have h1' : ¬ utf8 "greet" = (firstSegment p).1 := fun e => h1 e.symm
        have h3' : ¬ utf8 "about" = (firstSegment p).1 := fun e => h3 e.symm
        simp [routingNode.findChild, pathNode, routingNode.children, routingNode.emptyChild, h1',
          h3']
      rw [hf, if_neg h1, if_neg h3]
      simp [pathNode, routingNode.emptyChild, routingNode.multiChild, matchPath_none]

/-- The empty path matches nothing. -/
theorem matchPath_pathNode_nil : matchPath (some pathNode) [] = none := by
  rw [matchPath]
  simp [pathNode, routingNode.leaf]

/-- No pattern of `main` names a host or a method: matching is on the path
alone. -/
theorem matchRequest_registered (host method p : Bytes) :
    registeredMux.tree.matchRequest host method p = matchPath (some pathNode) p := by
  have hroot : ∀ key, key ≠ [] → registeredMux.tree.findChild key = none := by
    intro key hk
    simp [registeredMux, routingNode.findChild, routingNode.children, hk]
  have hempty : registeredMux.tree.emptyChild = some (.mk none [] none (some pathNode)) := rfl
  have hm : ∀ key, (routingNode.mk none [] none (some pathNode)).findChild key =
      if key = [] then some pathNode else none := by
    intro key
    by_cases hk : key = [] <;> simp [routingNode.findChild, routingNode.children,
      routingNode.emptyChild, hk]
  have hget : utf8 "GET" ≠ [] := by decide
  unfold routingNode.matchRequest
  have h1 : (if host ≠ [] then matchMethodAndPath (registeredMux.tree.findChild host) method p
      else none) = none := by
    by_cases hh : host = []
    · simp [hh]
    · simp [hh, hroot host hh, matchMethodAndPath]
  rw [h1, hempty]
  simp only [matchMethodAndPath, hm, hget, if_false, matchPath_none, routingNode.emptyChild]
  by_cases hk : method = []
  · simp only [hk, if_true]
    cases matchPath (some pathNode) p <;> simp [matchPath_none]
  · simp only [hk, if_false, matchPath_none]
    split_ifs <;> rfl

/-- Exactness of a match with the leaf of `/`. -/
theorem exactMatch_homeLeaf (p : Bytes) :
    exactMatch (some homeLeaf) p =
      if p ≠ [] ∧ p.getLast? ≠ some 47 then false else decide (1 = p.count 47) := by
  simp [exactMatch, homeLeaf, routingNode.leaf]

/-- Exactness of a match with the leaf of `/greet/`. -/
theorem exactMatch_greetLeaf (p : Bytes) :
    exactMatch (some greetLeaf) p =
      if p ≠ [] ∧ p.getLast? ≠ some 47 then false else decide (2 = p.count 47) := by
  simp [exactMatch, greetLeaf, routingNode.leaf]

/-- A match with the leaf of `/about` is exact. -/
theorem exactMatch_aboutLeaf (p : Bytes) : exactMatch (some aboutLeaf) p = true := by
  simp [exactMatch, aboutLeaf, routingNode.leaf]

/-! ## Auxiliary facts: trailing-slash redirects on the route table -/

/-- Without a URL there is no redirect: the result is the match. -/
theorem matchOrRedirect_nil (host method p : Bytes) :
    registeredMux.matchOrRedirect host method p none = (matchPath (some pathNode) p, none) := by
  simp [ServeMux.matchOrRedirect, matchRequest_registered]

/-- A trailing-slash redirect points to the cleaned URL path with a slash
appended. -/
theorem matchOrRedirect_target (host method p : Bytes) (u : URL) (T : Target)
    (h : (registeredMux.matchOrRedirect host method p (some u)).2 = some T) :
    T = { Path := cleanPath u.Path ++ [47], RawQuery := u.RawQuery } := by
  unfold ServeMux.matchOrRedirect at h
  simp only at h
  split_ifs at h
  exact (Option.some.inj h).symm

/-- Without a redirect the result is the match. -/
theorem matchOrRedirect_fst (host method p : Bytes) (u : URL)
    (h : (registeredMux.matchOrRedirect host method p (some u)).2 = none) :
    (registeredMux.matchOrRedirect host method p (some u)).1 = matchPath (some pathNode) p := by
  unfold ServeMux.matchOrRedirect at h ⊢
  simp only at h ⊢
  split_ifs at h ⊢
  exact matchRequest_registered host method p

/-- On a rooted path a trailing-slash redirect happens only for the single
segment `greet`. -/
theorem matchOrRedirect_rooted (host method p : Bytes) (u : URL) (T : Target)
    (h : (registeredMux.matchOrRedirect host method (47 :: p) (some u)).2 = some T) :
    p ≠ [] ∧ (47 : UInt8) ∉ p ∧ pathUnescape p = utf8 "greet" := by
  unfold ServeMux.matchOrRedirect at h
  simp only [matchRequest_registered] at h
  split_ifs at h with hc
  obtain ⟨_, hlast, hex⟩ := hc
  have hp : p ≠ [] := by
    rintro rfl
    exact hlast rfl
  have hq : p ++ [47] ≠ [] := by simp
  have hfs := firstSegment_cons (p ++ [47]) hq
  have hrest : fromSlash (p ++ [47]) ≠ [] := by
    intro h0
    exact not_mem_of_fromSlash_nil _ h0 (by simp)
  have hne : (47 : UInt8) :: p ++ [47] ≠ [] := by simp
  have hlast' : ((47 : UInt8) :: p ++ [47]).getLast? = some 47 := by
    rw [show (47 : UInt8) :: p ++ [47] = (47 :: p) ++ [47] from rfl, List.getLast?_concat]
  have hcount : ((47 : UInt8) :: p ++ [47]).count 47 = p.count 47 + 2 := by
    simp [List.count_cons, List.count_append]
  rw [show (47 : UInt8) :: p ++ [47] = 47 :: (p ++ [47]) from rfl] at hex hne hlast' hcount
  rw [matchPath_pathNode _ hne, hfs] at hex
  simp only [hrest, if_false] at hex
  by_cases hg : pathUnescape (beforeSlash (p ++ [47])) = utf8 "greet"
  · rw [if_pos hg, exactMatch_greetLeaf] at hex
    simp only [hlast', ne_eq, not_true_eq_false, and_false, if_false, hcount,
      decide_eq_true_eq] at hex
    have h0 : p.count 47 = 0 := by omega
    have hmem : (47 : UInt8) ∉ p := List.count_eq_zero.1 h0
    refine ⟨hp, hmem, ?_⟩
    rw [(beforeSlash_append p [] hmem).1] at hg
    exact hg
  · exfalso
    rw [if_neg hg] at hex
    have hhome : exactMatch (some homeLeaf) (47 :: (p ++ [47])) = false := by
      rw [exactMatch_homeLeaf]
      simp only [hlast', ne_eq, not_true_eq_false, and_false, if_false, hcount,
        decide_eq_false_iff_not]
      omega
    split_ifs at hex <;> simp [hhome] at hex

/-- A path whose first segment decodes to `greet` and is followed by a slash
matches the leaf of `/greet/`, without redirect. -/
theorem matchOrRedirect_greet (host method s rest : Bytes) (o : Option URL)
    (hs : (47 : UInt8) ∉ s) (hg : pathUnescape s = utf8 "greet") :
    registeredMux.matchOrRedirect host method (47 :: (s ++ 47 :: rest)) o =
      (some greetLeaf, none) := by
  have key : ∀ rest : Bytes, matchPath (some pathNode) (47 :: (s ++ 47 :: rest)) =
      some greetLeaf := by
    intro rest
    have hne : s ++ 47 :: rest ≠ [] := by simp
    rw [matchPath_pathNode _ (by simp), firstSegment_cons _ hne, (beforeSlash_append s rest hs).1,
      (beforeSlash_append s rest hs).2]
    simp [hg]
  cases o with
  | none => rw [matchOrRedirect_nil, key]
  | some u =>
    unfold ServeMux.matchOrRedirect
    simp only [matchRequest_registered, key]
    have happ : (47 : UInt8) :: (s ++ 47 :: rest) ++ [47] = 47 :: (s ++ 47 :: (rest ++ [47])) := by
      simp
    rw [happ, key]
    have hlast : ((47 : UInt8) :: (s ++ 47 :: (rest ++ [47]))).getLast? = some 47 := by
      rw [← happ, List.getLast?_concat]
    have hcount : ((47 : UInt8) :: (s ++ 47 :: (rest ++ [47]))).count 47 = rest.count 47 + 3 := by
      have : s.count 47 = 0 := List.count_eq_zero.2 hs
      simp [List.count_cons, List.count_append, this]
    have hex : exactMatch (some greetLeaf) (47 :: (s ++ 47 :: (rest ++ [47]))) = false := by
      rw [exactMatch_greetLeaf]
      simp only [hlast, ne_eq, not_true_eq_false, and_false, if_false, hcount,
        decide_eq_false_iff_not]
      omega
    simp [hex]

/-- A path whose single segment decodes to `about` matches the leaf of
`/about`, without redirect. -/
theorem matchOrRedirect_about (host method s : Bytes) (o : Option URL)
    (hs : (47 : UInt8) ∉ s) (ha : pathUnescape s = utf8 "about") :
    registeredMux.matchOrRedirect host method (47 :: s) o = (some aboutLeaf, none) := by
  have hne : s ≠ [] := by
    rintro rfl
    revert ha; decide
  have key : matchPath (some pathNode) (47 :: s) = some aboutLeaf := by
    have hag : utf8 "about" ≠ utf8 "greet" := by decide
    rw [matchPath_pathNode _ (by simp), firstSegment_cons _ hne, (beforeSlash_all s hs).1,
      (beforeSlash_all s hs).2]
    simp [ha, hag]
  cases o with
  | none => rw [matchOrRedirect_nil, key]
  | some u =>
    unfold ServeMux.matchOrRedirect
    simp [matchRequest_registered, key, exactMatch_aboutLeaf]

/-- The empty path is redirected when a URL is given. -/
theorem matchOrRedirect_empty (host method : Bytes) (u : URL) :
    (registeredMux.matchOrRedirect host method [] (some u)).2 =
      some { Path := cleanPath u.Path ++ [47], RawQuery := u.RawQuery } := by
  have h1 : matchPath (some pathNode) [47] = some homeLeaf := by
    rw [matchPath_pathNode _ (by simp)]
    have : firstSegment [47] = ([47], []) := by simp [firstSegment]
    rw [this]
    have a : ([47] : Bytes) ≠ utf8 "greet" := by decide
    have b : ([47] : Bytes) ≠ utf8 "about" := by decide
    simp [a, b]
  unfold ServeMux.matchOrRedirect
  simp [matchRequest_registered, matchPath_pathNode_nil, exactMatch, h1, homeLeaf,
    routingNode.leaf]

/-- The path `*` is redirected when a URL is given. -/
theorem matchOrRedirect_star (host method : Bytes) (u : URL) :
    (registeredMux.matchOrRedirect host method [42] (some u)).2 =
      some { Path := cleanPath u.Path ++ [47], RawQuery := u.RawQuery } := by
  have a : ([] : Bytes) ≠ utf8 "greet" := by decide
  have b : ([] : Bytes) ≠ utf8 "about" := by decide
  have f1 : firstSegment [42] = ([], []) := by decide
  have f2 : firstSegment [42, 47] = ([], [47]) := by decide
  have h1 : matchPath (some pathNode) [42] = some homeLeaf := by
    rw [matchPath_pathNode _ (by simp), f1]
    simp [a, b]
  have h2 : matchPath (some pathNode) [42, 47] = some homeLeaf := by
    rw [matchPath_pathNode _ (by simp), f2]
    simp [a, b]
  unfold ServeMux.matchOrRedirect
  simp [matchRequest_registered, h1, h2, exactMatch_homeLeaf]

/-- What a match on the path level can be. -/
theorem matchPath_pathNode_cases (p : Bytes) :
    matchPath (some pathNode) p = none ∨ matchPath (some pathNode) p = some homeLeaf ∨
      matchPath (some pathNode) p = some greetLeaf ∨
      matchPath (some pathNode) p = some aboutLeaf := by
  by_cases hp : p = []
  · left; rw [hp, matchPath_pathNode_nil]
  · rw [matchPath_pathNode p hp]
    split_ifs <;> simp

/-- The handlers at the three leaves. -/
theorem leafHandler_leaves :
    leafHandler (some homeLeaf) = (.func .homeHandler, utf8 "/") ∧
    leafHandler (some greetLeaf) = (.func .greetHandler, utf8 "/greet/") ∧
    leafHandler (some aboutLeaf) = (.func .aboutHandler, utf8 "/about") ∧
    leafHandler none = (.notFound, []) :=
  ⟨rfl, rfl, rfl, rfl⟩

/-! ## Auxiliary facts: `ServeMux.Handler` on the route table -/

/-- The three leaves are distinct. -/
theorem leaves_ne : some homeLeaf ≠ some greetLeaf ∧ some homeLeaf ≠ some aboutLeaf ∧
    some greetLeaf ≠ some aboutLeaf := by
  have h1 : utf8 "/" ≠ utf8 "/greet/" := by decide
  have h2 : utf8 "/" ≠ utf8 "/about" := by decide
  have h3 : utf8 "/greet/" ≠ utf8 "/about" := by decide
  refine ⟨?_, ?_, ?_⟩ <;> intro h <;> simp [homeLeaf, greetLeaf, aboutLeaf, h1, h2, h3] at h

/-- Method `ServeMux.Handler` on the route table, for a `CONNECT` request. -/
theorem Handler_connect (lib : Lib) (r : Request) (hm : r.Method = utf8 "CONNECT") :
    registeredMux.Handler lib r =
      match (registeredMux.matchOrRedirect r.URL.Host r.Method r.URL.EscapedPath
          (some r.URL)).2 with
      | some u => (.redirect u lib.redirectStatus, u.Path)
      | none => leafHandler (matchPath (some pathNode) r.URL.EscapedPath) := by
  simp [ServeMux.Handler, ServeMux.findHandler, hm, matchOrRedirect_nil]

/-- Method `ServeMux.Handler` on the route table, for a request other than
`CONNECT` whose escaped path is in canonical form. -/
theorem Handler_clean (lib : Lib) (r : Request) (hm : r.Method ≠ utf8 "CONNECT")
    (hc : cleanPath r.URL.EscapedPath = r.URL.EscapedPath) :
    registeredMux.Handler lib r =
      match (registeredMux.matchOrRedirect (lib.stripHostPort r.Host) r.Method
          r.URL.EscapedPath (some r.URL)).2 with
      | some u => (.redirect u lib.redirectStatus, u.Path)
      | none => leafHandler (matchPath (some pathNode) r.URL.EscapedPath) := by
  simp only [ServeMux.Handler, ServeMux.findHandler, hm, if_false, hc, ne_eq, not_true_eq_false]
  cases h : (registeredMux.matchOrRedirect (lib.stripHostPort r.Host) r.Method
      r.URL.EscapedPath (some r.URL)).2 with
  | some u => rfl
  | none => simp only [matchOrRedirect_fst _ _ _ _ h]

/-- Method `ServeMux.Handler` on the route table, for a request other than
`CONNECT` whose escaped path is not in canonical form: a redirect, to the
cleaned URL path with a slash appended or to the cleaned escaped path. -/
theorem Handler_unclean (lib : Lib) (r : Request) (hm : r.Method ≠ utf8 "CONNECT")
    (hc : cleanPath r.URL.EscapedPath ≠ r.URL.EscapedPath) :
    (registeredMux.Handler lib r).1 =
        .redirect { Path := cleanPath r.URL.Path ++ [47], RawQuery := r.URL.RawQuery }
          lib.redirectStatus ∨
      (registeredMux.Handler lib r).1 =
        .redirect { Path := cleanPath r.URL.EscapedPath, RawQuery := r.URL.RawQuery }
          lib.redirectStatus := by
  simp only [ServeMux.Handler, ServeMux.findHandler, hm, if_false, hc, ne_eq, not_false_eq_true,
    if_true]
  cases h : (registeredMux.matchOrRedirect (lib.stripHostPort r.Host) r.Method
      (cleanPath r.URL.EscapedPath) (some r.URL)).2 with
  | some u =>
    left
    rw [matchOrRedirect_target _ _ _ _ _ h]
  | none => right; rfl

/-- A single segment other than `.` and `..` is in canonical form. -/
theorem cleanPath_single (s : Bytes) (hne : s ≠ []) (hs : (47 : UInt8) ∉ s) (h1 : s ≠ [46])
    (h2 : s ≠ [46, 46]) : cleanPath (47 :: s) = 47 :: s := by
  obtain ⟨c, tl, rfl⟩ := List.exists_cons_of_ne_nil hne
  have hc : c ≠ 47 := fun e => hs (by simp [e])
  have ht : (47 : UInt8) ∉ tl := fun e => hs (by simp [e])
  have hhead : tl.head? ≠ some 47 := by
    intro h
    cases tl with
    | nil => simp at h
    | cons d tl' => simp at h; exact ht (by simp [h])
  have hdot : ¬ (c = 46 ∧ (tl = [] ∨ tl.head? = some 47)) := by
    rintro ⟨rfl, h | h⟩
    · exact h1 (by rw [h])
    · exact hhead h
  have hdotdot : ¬ (c = 46 ∧ tl.head? = some 46 ∧ (tl.tail = [] ∨ tl.tail.head? = some 47)) := by
    rintro ⟨rfl, h, h' | h'⟩
    · cases tl with
      | nil => simp at h
      | cons d tl' =>
        simp at h h'
        exact h2 (by rw [h, h'])
    · cases tl with
      | nil => simp at h'
      | cons d tl' =>
        cases tl' with
        | nil => simp at h'
        | cons e tl'' => simp at h'; exact ht (by simp [h'])
  have hloop : cleanLoop true (c :: tl) [47] 1 = 47 :: c :: tl := by
    rw [cleanLoop]
    simp only [hc, if_false, hdot, hdotdot]
    have htw : tl.takeWhile (· ≠ 47) = tl := (beforeSlash_all tl ht).1
    have hdw : tl.dropWhile (· ≠ 47) = [] := (beforeSlash_all tl ht).2
    rw [htw, hdw, cleanLoop]
    simp
  have hlast' : (c :: tl).getLast? ≠ some 47 := by
    intro h'
    exact hs (List.mem_of_getLast?_eq_some h')
  have hlast : ((47 : UInt8) :: c :: tl).getLast? ≠ some 47 := by
    intro h
    exact hlast' (by simpa [List.getLast?_cons_cons] using h)
  unfold cleanPath Clean
  simp [hloop, hlast, hlast']

/-- A match with the leaf of `/greet/` on the escaped path: the URL path
begins with `/greet/`. -/
theorem path_of_greetLeaf (r : Request)
    (h : matchPath (some pathNode) r.URL.EscapedPath = some greetLeaf) :
    utf8 "/greet/" <+: r.URL.Path := by
  have hun := unescape_EscapedPath r.URL
  rcases r.parsed.1.1 with hp | hp | hp
  · rw [EscapedPath_nonrooted _ r.parsed.1 (Or.inl hp), hp, matchPath_pathNode_nil] at h
    simp at h
  · rw [EscapedPath_nonrooted _ r.parsed.1 (Or.inr hp), hp] at h
    exfalso
    have f1 : firstSegment (utf8 "*") = ([], []) := by decide
    have a : ([] : Bytes) ≠ utf8 "greet" := by decide
    have b : ([] : Bytes) ≠ utf8 "about" := by decide
    rw [matchPath_pathNode _ (by decide), f1] at h
    simp only [a, b, if_false] at h
    exact leaves_ne.1 h
  · have hroot := EscapedPath_rooted _ r.parsed.1 hp
    rw [lit_root] at hroot
    obtain ⟨e, he⟩ := hroot
    rw [← he] at h hun
    simp only [List.singleton_append] at h hun
    by_cases hnil : e = []
    · exfalso
      subst hnil
      have f1 : firstSegment [47] = ([47], []) := by simp [firstSegment]
      have a : ([47] : Bytes) ≠ utf8 "greet" := by decide
      have b : ([47] : Bytes) ≠ utf8 "about" := by decide
      rw [matchPath_pathNode _ (by simp), f1] at h
      simp only [a, b, if_false] at h
      exact leaves_ne.1 h
    · rw [matchPath_pathNode _ (by simp), firstSegment_cons _ hnil] at h
      simp only at h
      by_cases hg : pathUnescape (beforeSlash e) = utf8 "greet"
      · by_cases hrest : fromSlash e = []
        · simp only [hg, hrest, if_true] at h
          exact absurd h leaves_ne.1
        · obtain ⟨b, hb⟩ := (path_of_segments e _ hun).2 hrest
          rw [hb, hg]
          exact ⟨b, by rw [show utf8 "/greet/" = 47 :: utf8 "greet" ++ [47] from by decide]; simp⟩
      · exfalso
        simp only [hg, if_false] at h
        split_ifs at h
        · exact leaves_ne.2.2 h.symm
        · exact leaves_ne.1 h
        · exact leaves_ne.1 h

/-- The decomposition of a rooted escaped path whose URL path is `/about`. -/
theorem escaped_of_about (r : Request) (hp : r.URL.Path = utf8 "/about") :
    ∃ s, r.URL.EscapedPath = 47 :: s ∧ (47 : UInt8) ∉ s ∧ pathUnescape s = utf8 "about" := by
  have hun := unescape_EscapedPath r.URL
  have hroot := EscapedPath_rooted _ r.parsed.1 (by rw [hp]; decide)
  rw [lit_root] at hroot
  obtain ⟨e, he⟩ := hroot
  rw [← he, hp] at hun
  simp only [List.singleton_append] at hun he
  refine ⟨e, he.symm, ?_⟩
  have hrest : fromSlash e = [] := by
    by_contra hrest
    obtain ⟨b, hb⟩ := (path_of_segments e _ hun).2 hrest
    have hmem : (47 : UInt8) ∈ pathUnescape (beforeSlash e) ++ 47 :: b := by simp
    have : pathUnescape (beforeSlash e) ++ 47 :: b = utf8 "about" := by
      have hb' : utf8 "/about" = 47 :: utf8 "about" := by decide
      rw [hb'] at hb
      simpa using hb.symm
    rw [this] at hmem
    revert hmem; decide
  have hmem := not_mem_of_fromSlash_nil e hrest
  refine ⟨hmem, ?_⟩
  have h := (path_of_segments e _ hun).1 hrest
  rw [(beforeSlash_all e hmem).1] at h
  have hb' : utf8 "/about" = 47 :: utf8 "about" := by decide
  rw [hb'] at h
  simpa using h.symm

/-- The handler chosen for the URL path `/about`. -/
theorem Handler_about (lib : Lib) (r : Request) (hp : r.URL.Path = utf8 "/about") :
    registeredMux.Handler lib r = (.func .aboutHandler, utf8 "/about") := by
  obtain ⟨s, he, hs, ha⟩ := escaped_of_about r hp
  have hne : s ≠ [] := by
    rintro rfl
    revert ha; decide
  have h1 : s ≠ [46] := by
    rintro rfl
    revert ha; decide
  have h2 : s ≠ [46, 46] := by
    rintro rfl
    revert ha; decide
  have hmatch : matchPath (some pathNode) (47 :: s) = some aboutLeaf := by
    have := matchOrRedirect_about [] [] s none hs ha
    rw [matchOrRedirect_nil] at this
    exact congrArg Prod.fst this
  by_cases hm : r.Method = utf8 "CONNECT"
  · rw [Handler_connect lib r hm, he, matchOrRedirect_about _ _ s _ hs ha, hmatch]
    rfl
  · have hc : cleanPath r.URL.EscapedPath = r.URL.EscapedPath := by
      rw [he]
      exact cleanPath_single s hne hs h1 h2
    rw [Handler_clean lib r hm hc, he, matchOrRedirect_about _ _ s _ hs ha, hmatch]
    rfl

/-- The handler chosen when the first segment of the escaped path decodes to
`greet` and a slash follows, and no cleaning redirect applies. -/
theorem Handler_greet (lib : Lib) (r : Request) (s rest : Bytes)
    (he : r.URL.EscapedPath = 47 :: (s ++ 47 :: rest)) (hs : (47 : UInt8) ∉ s)
    (hg : pathUnescape s = utf8 "greet")
    (hc : r.Method = utf8 "CONNECT" ∨ cleanPath r.URL.EscapedPath = r.URL.EscapedPath) :
    registeredMux.Handler lib r = (.func .greetHandler, utf8 "/greet/") := by
  have hmatch : matchPath (some pathNode) (47 :: (s ++ 47 :: rest)) = some greetLeaf := by
    have := matchOrRedirect_greet [] [] s rest none hs hg
    rw [matchOrRedirect_nil] at this
    exact congrArg Prod.fst this
  by_cases hm : r.Method = utf8 "CONNECT"
  · rw [Handler_connect lib r hm, he, matchOrRedirect_greet _ _ s rest _ hs hg, hmatch]
    rfl
  · rw [Handler_clean lib r hm (hc.resolve_left hm), he,
      matchOrRedirect_greet _ _ s rest _ hs hg, hmatch]
    rfl

/-- The handler chosen for a rooted URL path outside `/about` and `/greet/`:
the match on the escaped path is the leaf of `/`. -/
theorem homeLeaf_of_path (r : Request) (hr : utf8 "/" <+: r.URL.Path)
    (ha : r.URL.Path ≠ utf8 "/about") (hg : ¬ utf8 "/greet/" <+: r.URL.Path) :
    matchPath (some pathNode) r.URL.EscapedPath = some homeLeaf := by
  have hun := unescape_EscapedPath r.URL
  have hroot := EscapedPath_rooted _ r.parsed.1 hr
  rw [lit_root] at hroot
  obtain ⟨e, he⟩ := hroot
  simp only [List.singleton_append] at he
  rcases matchPath_pathNode_cases r.URL.EscapedPath with h | h | h | h
  · exfalso
    rw [← he, matchPath_pathNode _ (by simp)] at h
    split_ifs at h
  · exact h
  · exact absurd (path_of_greetLeaf r h) hg
  · exfalso
    rw [← he] at h hun
    by_cases hnil : e = []
    · subst hnil
      have f1 : firstSegment [47] = ([47], []) := by simp [firstSegment]
      have a : ([47] : Bytes) ≠ utf8 "greet" := by decide
      have b : ([47] : Bytes) ≠ utf8 "about" := by decide
      rw [matchPath_pathNode _ (by simp), f1] at h
      simp only [a, b, if_false] at h
      exact leaves_ne.2.1 h
    · rw [matchPath_pathNode _ (by simp), firstSegment_cons _ hnil] at h
      simp only at h
      by_cases hgs : pathUnescape (beforeSlash e) = utf8 "greet"
      · simp only [hgs, if_true] at h
        split_ifs at h
        · exact leaves_ne.2.1 h
        · exact leaves_ne.2.2 h
      · simp only [hgs, if_false] at h
        by_cases has : pathUnescape (beforeSlash e) = utf8 "about"
        · by_cases hrest : fromSlash e = []
          · have := (path_of_segments e _ hun).1 hrest
            rw [has] at this
            exact ha (by rw [this]; decide)
          · simp only [has, hrest, if_true, if_false] at h
            exact leaves_ne.2.1 h
        · simp only [has, if_false] at h
          exact leaves_ne.2.1 h

/-- Method `ServeMux.Handler` on the route table is one of three things: the
handler at the leaf that matches the escaped path (for `CONNECT`, or a
canonical escaped path), a redirect to the cleaned URL path with a slash
appended, or a redirect to the cleaned escaped path. -/
theorem Handler_trichotomy (lib : Lib) (r : Request) :
    ((r.Method = utf8 "CONNECT" ∨ cleanPath r.URL.EscapedPath = r.URL.EscapedPath) ∧
      registeredMux.Handler lib r = leafHandler (matchPath (some pathNode) r.URL.EscapedPath)) ∨
    (registeredMux.Handler lib r).1 =
      .redirect { Path := cleanPath r.URL.Path ++ [47], RawQuery := r.URL.RawQuery }
        lib.redirectStatus ∨
    (r.Method ≠ utf8 "CONNECT" ∧ cleanPath r.URL.EscapedPath ≠ r.URL.EscapedPath ∧
      (registeredMux.Handler lib r).1 =
        .redirect { Path := cleanPath r.URL.EscapedPath, RawQuery := r.URL.RawQuery }
          lib.redirectStatus) := by
  by_cases hm : r.Method = utf8 "CONNECT"
  · rw [Handler_connect lib r hm]
    cases h : (registeredMux.matchOrRedirect r.URL.Host r.Method r.URL.EscapedPath
        (some r.URL)).2 with
    | some u =>
      right; left
      rw [matchOrRedirect_target _ _ _ _ _ h]
    | none => left; exact ⟨Or.inl hm, rfl⟩
  · by_cases hc : cleanPath r.URL.EscapedPath = r.URL.EscapedPath
    · rw [Handler_clean lib r hm hc]
      cases h : (registeredMux.matchOrRedirect (lib.stripHostPort r.Host) r.Method
          r.URL.EscapedPath (some r.URL)).2 with
      | some u =>
        right; left
        rw [matchOrRedirect_target _ _ _ _ _ h]
      | none => left; exact ⟨Or.inr hc, rfl⟩
    · rcases Handler_unclean lib r hm hc with h | h
      · right; left; exact h
      · right; right; exact ⟨hm, hc, h⟩

/-- A rooted URL path outside `/about` and `/greet/` reaches the home handler
or is redirected. -/
theorem Handler_home_cases (lib : Lib) (r : Request) (hr : utf8 "/" <+: r.URL.Path)
    (ha : r.URL.Path ≠ utf8 "/about") (hg : ¬ utf8 "/greet/" <+: r.URL.Path) :
    (registeredMux.Handler lib r).1 = .func .homeHandler ∨
    (registeredMux.Handler lib r).1 =
      .redirect { Path := cleanPath r.URL.Path ++ [47], RawQuery := r.URL.RawQuery }
        lib.redirectStatus ∨
    (registeredMux.Handler lib r).1 =
      .redirect { Path := cleanPath r.URL.EscapedPath, RawQuery := r.URL.RawQuery }
        lib.redirectStatus := by
  rcases Handler_trichotomy lib r with ⟨_, h⟩ | h | ⟨_, _, h⟩
  · left
    rw [h, homeLeaf_of_path r hr ha hg]
    rfl
  · right; left; exact h
  · right; right; exact h

/-- A rooted URL path outside `/about`, `/greet` and `/greet/` that is not
redirected for cleaning reaches the home handler. -/
theorem Handler_home (lib : Lib) (r : Request) (hr : utf8 "/" <+: r.URL.Path)
    (ha : r.URL.Path ≠ utf8 "/about") (hg : ¬ utf8 "/greet/" <+: r.URL.Path)
    (hs : r.URL.Path ≠ utf8 "/greet")
    (hc : r.Method = utf8 "CONNECT" ∨ cleanPath r.URL.EscapedPath = r.URL.EscapedPath) :
    registeredMux.Handler lib r = (.func .homeHandler, utf8 "/") := by
  have hun := unescape_EscapedPath r.URL
  have hroot := EscapedPath_rooted _ r.parsed.1 hr
  rw [lit_root] at hroot
  obtain ⟨e, he⟩ := hroot
  simp only [List.singleton_append] at he
  have hno : ∀ host, (registeredMux.matchOrRedirect host r.Method r.URL.EscapedPath
      (some r.URL)).2 = none := by
    intro host
    cases h : (registeredMux.matchOrRedirect host r.Method r.URL.EscapedPath (some r.URL)).2 with
    | none => rfl
    | some T =>
      exfalso
      rw [← he] at h hun
      obtain ⟨_, hmem, hgs⟩ := matchOrRedirect_rooted _ _ _ _ _ h
      have := (path_of_segments e _ hun).1 (beforeSlash_all e hmem).2
      rw [(beforeSlash_all e hmem).1, hgs] at this
      exact hs (by rw [this]; decide)
  have hleaf := homeLeaf_of_path r hr ha hg
  by_cases hm : r.Method = utf8 "CONNECT"
  · rw [Handler_connect lib r hm, hno, hleaf]
    rfl
  · rw [Handler_clean lib r hm (hc.resolve_left hm), hno, hleaf]
    rfl

/-- When the first segment of the escaped path decodes to `greet` and a slash
follows, the request reaches the greet handler or is redirected. -/
theorem Handler_greet_cases (lib : Lib) (r : Request) (s rest : Bytes)
    (he : r.URL.EscapedPath = 47 :: (s ++ 47 :: rest)) (hs : (47 : UInt8) ∉ s)
    (hg : pathUnescape s = utf8 "greet") :
    (registeredMux.Handler lib r).1 = .func .greetHandler ∨
    (registeredMux.Handler lib r).1 =
      .redirect { Path := cleanPath r.URL.Path ++ [47], RawQuery := r.URL.RawQuery }
        lib.redirectStatus ∨
    (registeredMux.Handler lib r).1 =
      .redirect { Path := cleanPath r.URL.EscapedPath, RawQuery := r.URL.RawQuery }
        lib.redirectStatus := by
  rcases Handler_trichotomy lib r with ⟨hc, _⟩ | h | ⟨_, _, h⟩
  · left
    rw [Handler_greet lib r s rest he hs hg hc]
  · right; left; exact h
  · right; right; exact h

/-- Only a URL path under `/greet/` reaches the greet handler. -/
theorem Handler_greet_inv (lib : Lib) (r : Request)
    (h : (registeredMux.Handler lib r).1 = .func .greetHandler) :
    utf8 "/greet/" <+: r.URL.Path := by
  rcases Handler_trichotomy lib r with ⟨_, h'⟩ | h' | ⟨_, _, h'⟩
  · rw [h'] at h
    rcases matchPath_pathNode_cases r.URL.EscapedPath with hm | hm | hm | hm
    · rw [hm] at h; simp [leafHandler] at h
    · rw [hm] at h; simp [leafHandler_leaves.1] at h
    · exact path_of_greetLeaf r hm
    · rw [hm] at h; simp [leafHandler_leaves.2.2.1] at h
  · rw [h'] at h; cases h
  · rw [h'] at h; cases h

/-- A request whose URL path is not rooted reaches no handler function. -/
theorem Handler_nonrooted (lib : Lib) (r : Request) (hr : ¬ utf8 "/" <+: r.URL.Path)
    (f : HandlerFn) : (registeredMux.Handler lib r).1 ≠ .func f := by
  have hp : r.URL.Path = [] ∨ r.URL.Path = utf8 "*" := by
    rcases r.parsed.1.1 with h | h | h
    · exact Or.inl h
    · exact Or.inr h
    · exact absurd h hr
  have he := EscapedPath_nonrooted _ r.parsed.1 hp
  have hstar : utf8 "*" = [42] := by decide
  rcases Handler_trichotomy lib r with ⟨hc, h'⟩ | h' | ⟨_, _, h'⟩
  · rcases hc with hm | hc
    · rw [Handler_connect lib r hm, he]
      rcases hp with hp | hp
      · rw [hp, matchOrRedirect_empty]
        simp
      · rw [hp, hstar, matchOrRedirect_star]
        simp
    · exfalso
      rw [he] at hc
      rcases hp with hp | hp
      · rw [hp] at hc
        simp [cleanPath] at hc
      · rw [hp, hstar] at hc
        simp [cleanPath, Clean, cleanLoop] at hc
  · rw [h']; simp
  · rw [h']; simp

/-! ## Auxiliary facts: canonical forms of some paths -/

/-- The path `/nope` is in canonical form. -/
theorem cleanPath_nope : cleanPath (utf8 "/nope") = utf8 "/nope" := by
  rw [show utf8 "/nope" = [47, 110, 111, 112, 101] from by decide]
  simp [cleanPath, Clean, cleanLoop]

/-- The path `/favicon.ico` is in canonical form. -/
theorem cleanPath_favicon : cleanPath (utf8 "/favicon.ico") = utf8 "/favicon.ico" := by
  rw [show utf8 "/favicon.ico" = [47, 102, 97, 118, 105, 99, 111, 110, 46, 105, 99, 111] from by
    decide]
  simp [cleanPath, Clean, cleanLoop]

/-- The path `/greet/Bob` is in canonical form. -/
theorem cleanPath_greetBob : cleanPath (utf8 "/greet/Bob") = utf8 "/greet/Bob" := by
  rw [show utf8 "/greet/Bob" = [47, 103, 114, 101, 101, 116, 47, 66, 111, 98] from by decide]
  simp [cleanPath, Clean, cleanLoop]

/-- The path `/greet//x` is cleaned to `/greet/x`. -/
theorem cleanPath_greetSlashSlash : cleanPath (utf8 "/greet//x") = utf8 "/greet/x" := by
  rw [show utf8 "/greet//x" = [47, 103, 114, 101, 101, 116, 47, 47, 120] from by decide,
    show utf8 "/greet/x" = [47, 103, 114, 101, 101, 116, 47, 120] from by decide]
  simp [cleanPath, Clean, cleanLoop]

/-- The escaped path `/greet%2Fx` is in canonical form. -/
theorem cleanPath_greetEscaped : cleanPath (utf8 "/greet%2Fx") = utf8 "/greet%2Fx" := by
  rw [show utf8 "/greet%2Fx" = [47, 103, 114, 101, 101, 116, 37, 50, 70, 120] from by decide]
  simp [cleanPath, Clean, cleanLoop]

/-- The body that the home handler writes determines the clock reading. -/
theorem homeHandler_injective (now : Time) (hv : now.valid) (w : ResponseWriter) (r : Request) :
    ∀ (t : Time), t.valid → homeHandler t w r = homeHandler now w r → t = now := by
  intro t ht h
  rw [homeHandler_eq now hv w r, homeHandler_eq t ht w r] at h
  simp only [Except.ok.injEq, ResponseWriter.mk.injEq, List.append_assoc,
    List.append_cancel_left_eq, List.append_cancel_right_eq, List.cons.injEq, and_true,
    true_and] at h
  obtain ⟨a1, a2, a3, a4, b1, b2, c1, c2, d1, d2, e1, e2, f1, f2⟩ := h
  obtain ⟨h1, h2, h3, h4, h5, h6, h7, h8, h9⟩ := hv
  obtain ⟨k1, k2, k3, k4, k5, k6, k7, k8, k9⟩ := ht
  have a1 := utod_inj _ _ (by omega) (by omega) a1
  have a2 := utod_inj _ _ (by omega) (by omega) a2
  have a3 := utod_inj _ _ (by omega) (by omega) a3
  have a4 := utod_inj _ _ (by omega) (by omega) a4
  have b1 := utod_inj _ _ (by omega) (by omega) b1
  have b2 := utod_inj _ _ (by omega) (by omega) b2
  have c1 := utod_inj _ _ (by omega) (by omega) c1
  have c2 := utod_inj _ _ (by omega) (by omega) c2
  have d1 := utod_inj _ _ (by omega) (by omega) d1
  have d2 := utod_inj _ _ (by omega) (by omega) d2
  have e1 := utod_inj _ _ (by omega) (by omega) e1
  have e2 := utod_inj _ _ (by omega) (by omega) e2
  have f1 := utod_inj _ _ (by omega) (by omega) f1
  have f2 := utod_inj _ _ (by omega) (by omega) f2
  cases t with
  | mk y mo d h mi s =>
    cases now with
    | mk y' mo' d' h' mi' s' =>
      simp only at *
      have : y = y' := by omega
      have : mo = mo' := by omega
      have : d = d' := by omega
      have : h = h' := by omega
      have : mi = mi' := by omega
      have : s = s' := by omega
      subst_vars
      rfl

/-! ## The greet handler -/

/-- C1: for every non-empty name without `/`, the greet handler called on a
request whose URL path is `/greet/` followed by the name appends to the body
exactly the bytes of `Hello, ` ++ name ++ `! 👋\n`, the name being copied
byte for byte, and writes nothing else. -/
theorem greetHandler_named (w : ResponseWriter) (r : Request) (name : Bytes)
    (hne : name ≠ []) (_hslash : (47 : UInt8) ∉ name)
    (hp : r.URL.Path = utf8 "/greet/" ++ name) :
    greetHandler w r = .ok ⟨w.body ++ (utf8 "Hello, " ++ name ++ utf8 "! 👋\n")⟩ := by
  rw [greetHandler_eq w r name hp, if_neg hne]

/-- Witness for C1: the name `B%\n` (a percent sign and a control character)
on a fresh response. -/
theorem greetHandler_named_witness :
    greetHandler ⟨[]⟩ ⟨utf8 "GET", utf8 "localhost:8080", [],
        ⟨[], utf8 "/greet/" ++ [66, 37, 10], [], []⟩, by decide⟩
      = .ok ⟨[] ++ (utf8 "Hello, " ++ [66, 37, 10] ++ utf8 "! 👋\n")⟩ :=
  greetHandler_named _ _ [66, 37, 10] (by decide) (by decide) rfl

/-- C2: the greet handler called on a request whose URL path is exactly
`/greet/` appends to the body exactly `Hello, stranger! 👋\n` and writes
nothing else. -/
theorem greetHandler_stranger (w : ResponseWriter) (r : Request)
    (hp : r.URL.Path = utf8 "/greet/") :
    greetHandler w r = .ok ⟨w.body ++ utf8 "Hello, stranger! 👋\n"⟩ := by
  have h := greetHandler_eq w r [] (by simpa using hp)
  simpa using h

/-- Witness for C2: the path `/greet/` on a fresh response. -/
theorem greetHandler_stranger_witness :
    greetHandler ⟨[]⟩ ⟨utf8 "GET", utf8 "localhost:8080", [], ⟨[], utf8 "/greet/", [], []⟩,
        by decide⟩
      = .ok ⟨[] ++ utf8 "Hello, stranger! 👋\n"⟩ :=
  greetHandler_stranger _ _ rfl

/-- C10: the greeting is injective in the name except for one collision: two
names get the same body exactly when they are equal or are the empty name and
the name `stranger`. -/
theorem greetHandler_collision (w : ResponseWriter) (r₁ r₂ : Request) (a b : Bytes)
    (h₁ : r₁.URL.Path = utf8 "/greet/" ++ a) (h₂ : r₂.URL.Path = utf8 "/greet/" ++ b) :
    greetHandler w r₁ = greetHandler w r₂ ↔
      a = b ∨ (a = [] ∧ b = utf8 "stranger") ∨ (a = utf8 "stranger" ∧ b = []) := by
  have hs : utf8 "Hello, stranger! 👋\n" = utf8 "Hello, " ++ utf8 "stranger" ++ utf8 "! 👋\n" := by
    decide
  have hne : utf8 "stranger" ≠ [] := by decide
  rw [greetHandler_eq w r₁ a h₁, greetHandler_eq w r₂ b h₂]
  simp only [Except.ok.injEq, ResponseWriter.mk.injEq, List.append_cancel_left_eq]
  by_cases ha : a = [] <;> by_cases hb : b = []
  · simp [ha, hb]
  · rw [if_pos ha, if_neg hb, hs, List.append_cancel_right_eq, List.append_cancel_left_eq]
    constructor
    · intro h; exact Or.inr (Or.inl ⟨ha, h.symm⟩)
    · rintro (h | ⟨_, h⟩ | ⟨_, h⟩)
      · exact absurd (h ▸ ha) hb
      · exact h.symm
      · exact absurd h hb
  · rw [if_neg ha, if_pos hb, hs, List.append_cancel_right_eq, List.append_cancel_left_eq]
    constructor
    · intro h; exact Or.inr (Or.inr ⟨h, hb⟩)
    · rintro (h | ⟨h, _⟩ | ⟨h, _⟩)
      · exact absurd (h ▸ hb) ha
      · exact absurd h ha
      · exact h
  · rw [if_neg ha, if_neg hb, List.append_cancel_right_eq, List.append_cancel_left_eq]
    constructor
    · intro h; exact Or.inl h
    · rintro (h | ⟨h, _⟩ | ⟨_, h⟩)
      · exact h
      · exact absurd h ha
      · exact absurd h hb

/-- Witness for C10: the responses to `/greet/` and to `/greet/stranger` are
the same bytes. -/
theorem greetHandler_collision_witness :
    greetHandler ⟨[]⟩ ⟨utf8 "GET", [], [], ⟨[], utf8 "/greet/" ++ [], [], []⟩, by decide⟩ =
      greetHandler ⟨[]⟩
        ⟨utf8 "GET", [], [], ⟨[], utf8 "/greet/" ++ utf8 "stranger", [], []⟩, by decide⟩ :=
  (greetHandler_collision ⟨[]⟩ _ _ [] (utf8 "stranger") rfl rfl).2 (Or.inr (Or.inl ⟨rfl, rfl⟩))

/-! ## The about handler and its route -/

/-- The about handler writes the two fixed lines, whatever the request. -/
theorem aboutHandler_eq (w₀ : ResponseWriter) (r₀ : Request) :
    aboutHandler w₀ r₀ =
      .ok ⟨w₀.body ++ utf8 "This is a simple Go web server\nBuilt by a beginner learning Go!\n"⟩ := by
  have h1 : (37 : UInt8) ∉ utf8 "This is a simple Go web server\n" := by decide
  have h2 : (37 : UInt8) ∉ utf8 "Built by a beginner learning Go!\n" := by decide
  have h3 : utf8 "This is a simple Go web server\nBuilt by a beginner learning Go!\n" =
      utf8 "This is a simple Go web server\n" ++ utf8 "Built by a beginner learning Go!\n" := by
    decide
  unfold aboutHandler
  rw [Fprintf_literal _ _ h1]
  simp [bind, Except.bind, Fprintf_literal _ _ h2, h3]

/-- C5, counterexample: the path of `HEAD /about` is exactly `/about`, yet the
body of the response is empty, not the two lines: for a `HEAD` request the
server sends the status and headers only. -/
theorem about_head_empty_body :
    ∃ w, main none = .ok w ∧
      w.DefaultServeMux.ServeHTTP ⟨id, 307⟩ ⟨2024, 3, 9, 7, 5, 0⟩
          ⟨utf8 "HEAD", utf8 "localhost:8080", utf8 "/about", ⟨[], utf8 "/about", [], []⟩,
            by decide⟩ = .ok [] ∧
      Response.ok [] ≠
        .ok (utf8 "This is a simple Go web server\nBuilt by a beginner learning Go!\n") := by
  have hS : registeredMux.ServeHTTP ⟨id, 307⟩ ⟨2024, 3, 9, 7, 5, 0⟩
      ⟨utf8 "HEAD", utf8 "localhost:8080", utf8 "/about", ⟨[], utf8 "/about", [], []⟩,
        by decide⟩ = .ok [] := by
    unfold ServeMux.ServeHTTP
    rw [Handler_about _ _ rfl]
    decide
  exact ⟨_, main_eq none, hS, by decide⟩

/-- C5, amended: for every request whose path is exactly `/about`, whatever its
method, host and query string, the route table of `main` selects the about
handler; the about handler appends the fixed two-line body whatever the request
is; and the response is status 200 whose body is exactly these two lines for
every method but `HEAD`, and empty for `HEAD`. -/
theorem about_route (err : Option Bytes) (w : World) (hw : main err = .ok w)
    (lib : Lib) (r : Request) (hp : r.URL.Path = utf8 "/about") :
    w.DefaultServeMux.Handler lib r = (.func .aboutHandler, utf8 "/about") ∧
    (∀ (w₀ : ResponseWriter) (r₀ : Request), aboutHandler w₀ r₀ =
      .ok ⟨w₀.body ++ utf8 "This is a simple Go web server\nBuilt by a beginner learning Go!\n"⟩) ∧
    (∀ now : Time, w.DefaultServeMux.ServeHTTP lib now r =
      .ok (if r.Method = utf8 "HEAD" then []
        else utf8 "This is a simple Go web server\nBuilt by a beginner learning Go!\n")) := by
  rw [main_mux err w hw]
  refine ⟨Handler_about lib r hp, aboutHandler_eq, ?_⟩
  intro now
  have hstar : r.RequestURI ≠ utf8 "*" := by
    intro h
    have := r.parsed.2 h
    rw [hp] at this
    revert this
    decide
  simp [ServeMux.ServeHTTP, hstar, Handler_about lib r hp, HandlerFn.ServeHTTP, aboutHandler_eq]

/-- Witness for the amended C5: a `POST` to `/about?x=1`. -/
theorem about_route_witness :
    registeredMux.Handler ⟨id, 307⟩
        ⟨utf8 "POST", utf8 "localhost:8080", utf8 "/about?x=1",
          ⟨[], utf8 "/about", [], utf8 "x=1"⟩, by decide⟩ =
      (.func .aboutHandler, utf8 "/about") ∧
    registeredMux.ServeHTTP ⟨id, 307⟩ ⟨2024, 2, 29, 23, 59, 59⟩
        ⟨utf8 "POST", utf8 "localhost:8080", utf8 "/about?x=1",
          ⟨[], utf8 "/about", [], utf8 "x=1"⟩, by decide⟩ =
      .ok (utf8 "This is a simple Go web server\nBuilt by a beginner learning Go!\n") :=
  have h := about_route none _ (main_eq none) ⟨id, 307⟩
    ⟨utf8 "POST", utf8 "localhost:8080", utf8 "/about?x=1",
      ⟨[], utf8 "/about", [], utf8 "x=1"⟩, by decide⟩ rfl
  ⟨h.1, (h.2.2 _).trans (by decide)⟩

/-! ## The route table -/

/-- The route table sends `GET /nope` to the home handler. -/
theorem Handler_nope (lib : Lib) :
    registeredMux.Handler lib
        ⟨utf8 "GET", utf8 "localhost:8080", utf8 "/nope", ⟨[], utf8 "/nope", [], []⟩,
          by decide⟩ = (.func .homeHandler, utf8 "/") :=
  Handler_home lib _ (by decide) (by decide) (by decide) (by decide)
    (Or.inr (by rw [show URL.EscapedPath _ = utf8 "/nope" from by decide]
                exact cleanPath_nope))

/-- C3, counterexample: the path `/nope` is not `/`, not `/about` and not under
`/greet/`, yet the route table of `main` selects the home handler for it, and
the server answers with status 200 and the home page, not with not-found. -/
theorem nope_reaches_homeHandler :
    ∃ w, main none = .ok w ∧
      utf8 "/nope" ≠ utf8 "/" ∧ utf8 "/nope" ≠ utf8 "/about" ∧
      ¬ utf8 "/greet/" <+: utf8 "/nope" ∧
      w.DefaultServeMux.Handler ⟨id, 307⟩
          ⟨utf8 "GET", utf8 "localhost:8080", utf8 "/nope", ⟨[], utf8 "/nope", [], []⟩,
            by decide⟩ = (.func .homeHandler, utf8 "/") ∧
      w.DefaultServeMux.ServeHTTP ⟨id, 307⟩ ⟨2024, 3, 9, 7, 5, 0⟩
          ⟨utf8 "GET", utf8 "localhost:8080", utf8 "/nope", ⟨[], utf8 "/nope", [], []⟩,
            by decide⟩ =
        .ok (utf8 "Welcome to my Go server! 🚀\nCurrent time: 2024-03-09 07:05:00\n") := by
  have hS : registeredMux.ServeHTTP ⟨id, 307⟩ ⟨2024, 3, 9, 7, 5, 0⟩
      ⟨utf8 "GET", utf8 "localhost:8080", utf8 "/nope", ⟨[], utf8 "/nope", [], []⟩,
        by decide⟩ =
      .ok (utf8 "Welcome to my Go server! 🚀\nCurrent time: 2024-03-09 07:05:00\n") := by
    unfold ServeMux.ServeHTTP
    rw [Handler_nope]
    decide
  exact ⟨_, main_eq none, by decide, by decide, by decide, Handler_nope _, hS⟩

/-- C3, amended: for every request whose path is not `/about` and is not under
`/greet/`, the route table of `main` selects neither the greet nor the about
handler.  If the path is rooted, the route table does not yield not-found: it
selects the home handler, or answers with a redirect to the cleaned URL path
with a slash appended or to the cleaned path as sent; and it selects the home
handler whenever the path is not `/greet` and no cleaning redirect applies (the
method is `CONNECT` or the path as sent is in canonical form).  If the path is
not rooted, no handler function is selected. -/
theorem rooted_path_home_or_redirect (err : Option Bytes) (w : World) (hw : main err = .ok w)
    (lib : Lib) (r : Request) (ha : r.URL.Path ≠ utf8 "/about")
    (hg : ¬ utf8 "/greet/" <+: r.URL.Path) :
    ((w.DefaultServeMux.Handler lib r).1 ≠ .func .greetHandler ∧
      (w.DefaultServeMux.Handler lib r).1 ≠ .func .aboutHandler) ∧
    (utf8 "/" <+: r.URL.Path →
      ((w.DefaultServeMux.Handler lib r).1 = .func .homeHandler ∨
        (w.DefaultServeMux.Handler lib r).1 =
          .redirect ⟨cleanPath r.URL.Path ++ utf8 "/", r.URL.RawQuery⟩ lib.redirectStatus ∨
        (w.DefaultServeMux.Handler lib r).1 =
          .redirect ⟨cleanPath r.URL.EscapedPath, r.URL.RawQuery⟩ lib.redirectStatus) ∧
      (r.URL.Path ≠ utf8 "/greet" →
        (r.Method = utf8 "CONNECT" ∨ cleanPath r.URL.EscapedPath = r.URL.EscapedPath) →
        w.DefaultServeMux.Handler lib r = (.func .homeHandler, utf8 "/"))) ∧
    (¬ utf8 "/" <+: r.URL.Path → ∀ f, (w.DefaultServeMux.Handler lib r).1 ≠ .func f) := by
  rw [main_mux err w hw, lit_root]
  have hcases : utf8 "/" <+: r.URL.Path →
      ((registeredMux.Handler lib r).1 = .func .homeHandler ∨
        (registeredMux.Handler lib r).1 =
          .redirect ⟨cleanPath r.URL.Path ++ [47], r.URL.RawQuery⟩ lib.redirectStatus ∨
        (registeredMux.Handler lib r).1 =
          .redirect ⟨cleanPath r.URL.EscapedPath, r.URL.RawQuery⟩ lib.redirectStatus) :=
    fun hr => Handler_home_cases lib r hr ha hg
  rw [← lit_root]
  refine ⟨?_, fun hr => ⟨by rw [lit_root]; exact hcases hr,
    fun hs hc => Handler_home lib r hr ha hg hs hc⟩, fun hr f => Handler_nonrooted lib r hr f⟩
  by_cases hr : utf8 "/" <+: r.URL.Path
  · rcases hcases hr with h | h | h <;> rw [h] <;> simp
  · exact ⟨Handler_nonrooted lib r hr _, Handler_nonrooted lib r hr _⟩

/-- Witness for the amended C3: `GET /favicon.ico` is served by the home
handler. -/
theorem rooted_path_home_or_redirect_witness :
    registeredMux.Handler ⟨id, 307⟩ ⟨utf8 "GET", utf8 "localhost:8080", utf8 "/favicon.ico",
        ⟨[], utf8 "/favicon.ico", [], []⟩, by decide⟩ = (.func .homeHandler, utf8 "/") :=
  ((rooted_path_home_or_redirect none _ (main_eq none) ⟨id, 307⟩
    ⟨utf8 "GET", utf8 "localhost:8080", utf8 "/favicon.ico",
      ⟨[], utf8 "/favicon.ico", [], []⟩, by decide⟩
    (by decide) (by decide)).2.1 (by decide)).2 (by decide)
    (Or.inr (by rw [show URL.EscapedPath _ = utf8 "/favicon.ico" from by decide]
                exact cleanPath_favicon))

/-- The route table answers `GET /greet//x` with a redirect to `/greet/x`. -/
theorem Handler_greetSlashSlash (lib : Lib) :
    (registeredMux.Handler lib
        ⟨utf8 "GET", utf8 "localhost:8080", utf8 "/greet//x", ⟨[], utf8 "/greet//x", [], []⟩,
          by decide⟩).1 = .redirect ⟨utf8 "/greet/x", []⟩ lib.redirectStatus := by
  have hm : utf8 "GET" ≠ utf8 "CONNECT" := by decide
  have hne : utf8 "/greet/x" ≠ utf8 "/greet//x" := by decide
  have hx : utf8 "/greet/x" = 47 :: (utf8 "greet" ++ 47 :: [120]) := by decide
  have hmr := matchOrRedirect_greet (lib.stripHostPort (utf8 "localhost:8080")) (utf8 "GET")
    (utf8 "greet") [120] (some ⟨[], utf8 "/greet//x", [], []⟩) (by decide) (by decide)
  rw [← hx] at hmr
  simp only [ServeMux.Handler, ServeMux.findHandler, hm, if_false,
    show URL.EscapedPath ⟨[], utf8 "/greet//x", [], []⟩ = utf8 "/greet//x" from by decide,
    cleanPath_greetSlashSlash, hmr, ne_eq, hne, not_false_eq_true, if_true]

/-- The route table sends `GET /greet%2Fx` to the home handler. -/
theorem Handler_greetEscaped (lib : Lib) :
    registeredMux.Handler lib
        ⟨utf8 "GET", utf8 "localhost:8080", utf8 "/greet%2Fx",
          ⟨[], utf8 "/greet/x", utf8 "/greet%2Fx", []⟩, by decide⟩ =
      (.func .homeHandler, utf8 "/") := by
  have hm : utf8 "GET" ≠ utf8 "CONNECT" := by decide
  have he : URL.EscapedPath ⟨[], utf8 "/greet/x", utf8 "/greet%2Fx", []⟩ = utf8 "/greet%2Fx" := by
    decide
  have hx : utf8 "/greet%2Fx" = 47 :: utf8 "greet%2Fx" := by decide
  have hleaf : matchPath (some pathNode) (utf8 "/greet%2Fx") = some homeLeaf := by
    have f : firstSegment (utf8 "/greet%2Fx") = (utf8 "greet/x", []) := by decide
    have a : utf8 "greet/x" ≠ utf8 "greet" := by decide
    have b : utf8 "greet/x" ≠ utf8 "about" := by decide
    rw [matchPath_pathNode _ (by decide), f]
    simp [a, b]
  rw [Handler_clean lib _ hm (by rw [he]; exact cleanPath_greetEscaped)]
  simp only [he]
  cases h : (registeredMux.matchOrRedirect (lib.stripHostPort (utf8 "localhost:8080"))
      (utf8 "GET") (utf8 "/greet%2Fx") (some ⟨[], utf8 "/greet/x", utf8 "/greet%2Fx", []⟩)).2 with
  | none =>
    simp only [hleaf]
    rfl
  | some T =>
    exfalso
    rw [hx] at h
    have := (matchOrRedirect_rooted _ _ _ _ _ h).2.2
    revert this
    decide

/-- C4, counterexample: the paths of `GET /greet//x` and of `GET /greet%2Fx`
begin with `/greet/`, yet the route table of `main` selects the greet handler
for neither: the first request is answered with a redirect to `/greet/x`, and
the second, whose path as sent has the single segment `greet%2Fx`, is
dispatched to the home handler. -/
theorem greet_prefix_not_greetHandler :
    ∃ w, main none = .ok w ∧
      utf8 "/greet/" <+: utf8 "/greet//x" ∧
      (w.DefaultServeMux.Handler ⟨id, 307⟩
          ⟨utf8 "GET", utf8 "localhost:8080", utf8 "/greet//x",
            ⟨[], utf8 "/greet//x", [], []⟩, by decide⟩).1 =
        .redirect ⟨utf8 "/greet/x", []⟩ 307 ∧
      utf8 "/greet/" <+: utf8 "/greet/x" ∧
      (w.DefaultServeMux.Handler ⟨id, 307⟩
          ⟨utf8 "GET", utf8 "localhost:8080", utf8 "/greet%2Fx",
            ⟨[], utf8 "/greet/x", utf8 "/greet%2Fx", []⟩, by decide⟩).1 =
        .func .homeHandler ∧
      Handler.redirect ⟨utf8 "/greet/x", []⟩ 307 ≠ .func .greetHandler ∧
      Handler.func .homeHandler ≠ .func .greetHandler := by
  refine ⟨_, main_eq none, by decide, Handler_greetSlashSlash ⟨id, 307⟩, by decide, ?_,
    by decide, by decide⟩
  show (registeredMux.Handler _ _).1 = _
  rw [Handler_greetEscaped]

/-- C4, amended: for every request whose path begins with `/greet/` and whose
path as sent has a first segment that decodes to `greet` and is followed by a
slash, the route table of `main` selects the greet handler (never the home
handler, although `/` is registered too), or answers with a redirect to the
cleaned URL path with a slash appended or to the cleaned path as sent; it
selects the greet handler, with pattern `/greet/`, whenever no cleaning
redirect applies (the method is `CONNECT` or the path as sent is in canonical
form), and answers with one of the two redirects otherwise; and the name that
the greet handler greets is exactly the remainder of the path after the 7-byte
prefix. -/
theorem greet_route (err : Option Bytes) (w : World) (hw : main err = .ok w)
    (lib : Lib) (r : Request) (name s rest : Bytes)
    (hp : r.URL.Path = utf8 "/greet/" ++ name)
    (he : r.URL.EscapedPath = utf8 "/" ++ s ++ utf8 "/" ++ rest) (hs : (47 : UInt8) ∉ s)
    (hg : pathUnescape s = utf8 "greet") :
    ((w.DefaultServeMux.Handler lib r).1 = .func .greetHandler ∨
      (w.DefaultServeMux.Handler lib r).1 =
        .redirect ⟨cleanPath r.URL.Path ++ utf8 "/", r.URL.RawQuery⟩ lib.redirectStatus ∨
      (w.DefaultServeMux.Handler lib r).1 =
        .redirect ⟨cleanPath r.URL.EscapedPath, r.URL.RawQuery⟩ lib.redirectStatus) ∧
    ((r.Method = utf8 "CONNECT" ∨ cleanPath r.URL.EscapedPath = r.URL.EscapedPath) →
      w.DefaultServeMux.Handler lib r = (.func .greetHandler, utf8 "/greet/")) ∧
    (r.Method ≠ utf8 "CONNECT" → cleanPath r.URL.EscapedPath ≠ r.URL.EscapedPath →
      ((w.DefaultServeMux.Handler lib r).1 =
          .redirect ⟨cleanPath r.URL.Path ++ utf8 "/", r.URL.RawQuery⟩ lib.redirectStatus ∨
        (w.DefaultServeMux.Handler lib r).1 =
          .redirect ⟨cleanPath r.URL.EscapedPath, r.URL.RawQuery⟩ lib.redirectStatus)) ∧
    (utf8 "/greet/").length = 7 ∧
    (∀ w₀ : ResponseWriter, greetHandler w₀ r =
      if name = [] then Fprintf w₀ (utf8 "Hello, stranger! 👋\n") []
      else Fprintf w₀ (utf8 "Hello, %s! 👋\n") [name]) := by
  have he' : r.URL.EscapedPath = 47 :: (s ++ 47 :: rest) := by
    rw [he, lit_root]; simp
  rw [main_mux err w hw, lit_root]
  refine ⟨Handler_greet_cases lib r s rest he' hs hg,
    fun hc => Handler_greet lib r s rest he' hs hg hc,
    fun hm hc => Handler_unclean lib r hm hc, by decide, ?_⟩
  intro w₀
  have hlen : (utf8 "/greet/").length = 7 := by decide
  simp [greetHandler, sliceFrom, hp, hlen, lit_empty, bind, Except.bind]

/-- Witness for the amended C4: `GET /greet/Bob` reaches the greet handler,
which greets `Bob`. -/
theorem greet_route_witness :
    registeredMux.Handler ⟨id, 307⟩ ⟨utf8 "GET", utf8 "localhost:8080", utf8 "/greet/Bob",
        ⟨[], utf8 "/greet/" ++ utf8 "Bob", [], []⟩, by decide⟩ =
      (.func .greetHandler, utf8 "/greet/") ∧
    greetHandler ⟨[]⟩ ⟨utf8 "GET", utf8 "localhost:8080", utf8 "/greet/Bob",
        ⟨[], utf8 "/greet/" ++ utf8 "Bob", [], []⟩, by decide⟩ =
      .ok ⟨utf8 "Hello, Bob! 👋\n"⟩ :=
  have h := greet_route none _ (main_eq none) ⟨id, 307⟩
    ⟨utf8 "GET", utf8 "localhost:8080", utf8 "/greet/Bob",
      ⟨[], utf8 "/greet/" ++ utf8 "Bob", [], []⟩, by decide⟩
    (utf8 "Bob") (utf8 "greet") (utf8 "Bob") rfl (by decide) (by decide) (by decide)
  ⟨h.2.1 (Or.inr (by
      rw [show URL.EscapedPath _ = utf8 "/greet/Bob" from by decide]
      exact cleanPath_greetBob)), (h.2.2.2.2 ⟨[]⟩).trans (by decide)⟩

/-! ## Determinism of the responses -/

/-- Serving requests leaves the state as it was. -/
theorem serveAll_state (w : World) (lib : Lib) (h : List (Time × Request)) :
    (w.serveAll lib h).2 = w := by
  induction h with
  | nil => rfl
  | cons tr rest ih =>
    obtain ⟨t, r⟩ := tr
    simp only [World.serveAll, World.serve]
    exact ih

/-- C7, counterexample: the path `/nope` is not `/`, yet serving the same `GET`
request at two clock readings one second apart yields two different bodies. -/
theorem nope_not_deterministic :
    ∃ w, main none = .ok w ∧
      utf8 "/nope" ≠ utf8 "/" ∧
      w.DefaultServeMux.ServeHTTP ⟨id, 307⟩ ⟨2024, 3, 9, 7, 5, 0⟩
          ⟨utf8 "GET", utf8 "localhost:8080", utf8 "/nope", ⟨[], utf8 "/nope", [], []⟩,
            by decide⟩ ≠
        w.DefaultServeMux.ServeHTTP ⟨id, 307⟩ ⟨2024, 3, 9, 7, 5, 1⟩
          ⟨utf8 "GET", utf8 "localhost:8080", utf8 "/nope", ⟨[], utf8 "/nope", [], []⟩,
            by decide⟩ := by
  have hS : registeredMux.ServeHTTP ⟨id, 307⟩ ⟨2024, 3, 9, 7, 5, 0⟩
      ⟨utf8 "GET", utf8 "localhost:8080", utf8 "/nope", ⟨[], utf8 "/nope", [], []⟩,
        by decide⟩ ≠
      registeredMux.ServeHTTP ⟨id, 307⟩ ⟨2024, 3, 9, 7, 5, 1⟩
      ⟨utf8 "GET", utf8 "localhost:8080", utf8 "/nope", ⟨[], utf8 "/nope", [], []⟩,
        by decide⟩ := by
    unfold ServeMux.ServeHTTP
    rw [Handler_nope]
    decide
  exact ⟨_, main_eq none, by decide, hS⟩

/-- C7, amended: serving a request leaves no state behind, and for every
request that the route table of `main` does not dispatch to the home handler,
the response is the same at every clock reading and after any requests served
before; this covers every request whose path is `/about` and every request
whose path as sent has a first segment that decodes to `greet` and is followed
by a slash.  For a request that is dispatched to the home handler the body
carries the clock reading: unless the method is `HEAD`, its responses at two
different valid readings differ. -/
theorem response_deterministic (err : Option Bytes) (w : World) (hw : main err = .ok w)
    (lib : Lib) (r : Request) (h₁ h₂ : List (Time × Request)) (t₁ t₂ : Time) :
    (w.serveAll lib h₁).2 = w ∧ ((w.serveAll lib h₁).2.serve lib t₁ r).2 = w ∧
    ((w.DefaultServeMux.Handler lib r).1 ≠ .func .homeHandler →
      ((w.serveAll lib h₁).2.serve lib t₁ r).1 = ((w.serveAll lib h₂).2.serve lib t₂ r).1) ∧
    (r.URL.Path = utf8 "/about" →
      (w.DefaultServeMux.Handler lib r).1 ≠ .func .homeHandler) ∧
    (∀ s rest : Bytes, r.URL.EscapedPath = utf8 "/" ++ s ++ utf8 "/" ++ rest →
      (47 : UInt8) ∉ s → pathUnescape s = utf8 "greet" →
      (w.DefaultServeMux.Handler lib r).1 ≠ .func .homeHandler) ∧
    ((w.DefaultServeMux.Handler lib r).1 = .func .homeHandler → r.Method ≠ utf8 "HEAD" →
      t₁.valid → t₂.valid → t₁ ≠ t₂ →
      ((w.serveAll lib h₁).2.serve lib t₁ r).1 ≠ ((w.serveAll lib h₂).2.serve lib t₂ r).1) := by
  rw [serveAll_state, serveAll_state]
  simp only [World.serve]
  rw [main_mux err w hw]
  refine ⟨trivial, trivial, ?_, ?_, ?_, ?_⟩
  · intro hh
    unfold ServeMux.ServeHTTP
    cases hH : (registeredMux.Handler lib r).1 with
    | func f =>
      cases f with
      | homeHandler => exact absurd hH hh
      | greetHandler => rfl
      | aboutHandler => rfl
    | redirect u code => rfl
    | notFound => rfl
  · intro hp
    rw [Handler_about lib r hp]
    simp
  · intro s rest he hs hg
    have he' : r.URL.EscapedPath = 47 :: (s ++ 47 :: rest) := by
      rw [he, lit_root]; simp
    rcases Handler_greet_cases lib r s rest he' hs hg with h | h | h <;> rw [h] <;> simp
  · intro hH hhead hv₁ hv₂ hne heq
    have hstar : r.RequestURI ≠ utf8 "*" := by
      intro h
      have hp := r.parsed.2 h
      have hr : ¬ utf8 "/" <+: r.URL.Path := by
        rw [hp]; decide
      exact Handler_nonrooted lib r hr _ hH
    unfold ServeMux.ServeHTTP at heq
    simp only [hstar, if_false, hH, HandlerFn.ServeHTTP, homeHandler_eq t₁ hv₁,
      homeHandler_eq t₂ hv₂, hhead, Response.ok.injEq] at heq
    have hback : homeHandler t₁ ⟨[]⟩ r = homeHandler t₂ ⟨[]⟩ r := by
      rw [homeHandler_eq t₁ hv₁, homeHandler_eq t₂ hv₂]
      exact congrArg (fun b => Except.ok (ResponseWriter.mk b)) heq
    exact hne (homeHandler_injective t₂ hv₂ ⟨[]⟩ r t₁ hv₁ hback)

/-- Witness for the amended C7: `GET /greet/Bob` gets the same response at two
clock readings, the second time after `GET /nope` was served. -/
theorem response_deterministic_witness :
    registeredMux.ServeHTTP ⟨id, 307⟩ ⟨2024, 3, 9, 7, 5, 0⟩
        ⟨utf8 "GET", utf8 "localhost:8080", utf8 "/greet/Bob",
          ⟨[], utf8 "/greet/Bob", [], []⟩, by decide⟩ =
      registeredMux.ServeHTTP ⟨id, 307⟩ ⟨2031, 12, 31, 23, 59, 59⟩
        ⟨utf8 "GET", utf8 "localhost:8080", utf8 "/greet/Bob",
          ⟨[], utf8 "/greet/Bob", [], []⟩, by decide⟩ :=
  (response_deterministic none _ (main_eq none) ⟨id, 307⟩
    ⟨utf8 "GET", utf8 "localhost:8080", utf8 "/greet/Bob",
      ⟨[], utf8 "/greet/Bob", [], []⟩, by decide⟩
    [] [(⟨2024, 3, 9, 7, 5, 1⟩, ⟨utf8 "GET", utf8 "localhost:8080", utf8 "/nope",
      ⟨[], utf8 "/nope", [], []⟩, by decide⟩)]
    ⟨2024, 3, 9, 7, 5, 0⟩ ⟨2031, 12, 31, 23, 59, 59⟩).2.2.1
    (by
      have h : registeredMux.Handler ⟨id, 307⟩
          ⟨utf8 "GET", utf8 "localhost:8080", utf8 "/greet/Bob",
            ⟨[], utf8 "/greet/Bob", [], []⟩, by decide⟩ =
          (.func .greetHandler, utf8 "/greet/") :=
        Handler_greet _ _ (utf8 "greet") (utf8 "Bob") (by decide) (by decide) (by decide)
          (Or.inr (by rw [show URL.EscapedPath _ = utf8 "/greet/Bob" from by decide]
                      exact cleanPath_greetBob))
      show (registeredMux.Handler _ _).1 ≠ _
      rw [h]
      decide)

/-! ## The home handler -/

/-- C6: for every valid clock reading, the home handler appends exactly the
welcome line followed by `Current time: `, the 19 bytes `YYYY-MM-DD HH:MM:SS`
of that reading (four decimal digits of the year, two of the month, day, hour,
minute and second, separated by `-`, `-`, space, `:`, `:`) and a newline,
whatever the request is; and the body determines the reading: two valid
readings with the same body are equal. -/
theorem homeHandler_body (now : Time) (hv : now.valid) (w : ResponseWriter) (r : Request) :
    homeHandler now w r = .ok ⟨w.body ++ utf8 "Welcome to my Go server! 🚀\n" ++
      utf8 "Current time: " ++
      [utod (now.year.toNat / 1000), utod (now.year.toNat / 100 % 10),
       utod (now.year.toNat / 10 % 10), utod (now.year.toNat % 10), 45,
       utod (now.month / 10), utod (now.month % 10), 45,
       utod (now.day / 10), utod (now.day % 10), 32,
       utod (now.hour / 10), utod (now.hour % 10), 58,
       utod (now.min / 10), utod (now.min % 10), 58,
       utod (now.sec / 10), utod (now.sec % 10)] ++ utf8 "\n"⟩ ∧
    (∀ (r₀ : Request), homeHandler now w r₀ = homeHandler now w r) ∧
    (∀ (t : Time), t.valid → homeHandler t w r = homeHandler now w r → t = now) := by
  refine ⟨homeHandler_eq now hv w r, ?_, ?_⟩
  · intro r₀
    rw [homeHandler_eq now hv w r₀, homeHandler_eq now hv w r]
  · intro t ht h
    rw [homeHandler_eq now hv w r, homeHandler_eq t ht w r] at h
    simp only [Except.ok.injEq, ResponseWriter.mk.injEq, List.append_assoc,
      List.append_cancel_left_eq, List.append_cancel_right_eq, List.cons.injEq, and_true,
      true_and] at h
    obtain ⟨a1, a2, a3, a4, b1, b2, c1, c2, d1, d2, e1, e2, f1, f2⟩ := h
    obtain ⟨h1, h2, h3, h4, h5, h6, h7, h8, h9⟩ := hv
    obtain ⟨k1, k2, k3, k4, k5, k6, k7, k8, k9⟩ := ht
    have a1 := utod_inj _ _ (by omega) (by omega) a1
    have a2 := utod_inj _ _ (by omega) (by omega) a2
    have a3 := utod_inj _ _ (by omega) (by omega) a3
    have a4 := utod_inj _ _ (by omega) (by omega) a4
    have b1 := utod_inj _ _ (by omega) (by omega) b1
    have b2 := utod_inj _ _ (by omega) (by omega) b2
    have c1 := utod_inj _ _ (by omega) (by omega) c1
    have c2 := utod_inj _ _ (by omega) (by omega) c2
    have d1 := utod_inj _ _ (by omega) (by omega) d1
    have d2 := utod_inj _ _ (by omega) (by omega) d2
    have e1 := utod_inj _ _ (by omega) (by omega) e1
    have e2 := utod_inj _ _ (by omega) (by omega) e2
    have f1 := utod_inj _ _ (by omega) (by omega) f1
    have f2 := utod_inj _ _ (by omega) (by omega) f2
    cases t with
    | mk y mo d h mi s =>
      cases now with
      | mk y' mo' d' h' mi' s' =>
        simp only at *
        have : y = y' := by omega
        have : mo = mo' := by omega
        have : d = d' := by omega
        have : h = h' := by omega
        have : mi = mi' := by omega
        have : s = s' := by omega
        subst_vars
        rfl

/-- Witness for C6: the reading 2024-03-09 07:05:00 on a fresh response. -/
theorem homeHandler_body_witness :
    homeHandler ⟨2024, 3, 9, 7, 5, 0⟩ ⟨[]⟩
        ⟨utf8 "GET", [], utf8 "/", ⟨[], utf8 "/", [], []⟩, by decide⟩ =
      .ok ⟨utf8 "Welcome to my Go server! 🚀\nCurrent time: 2024-03-09 07:05:00\n"⟩ :=
  (homeHandler_body ⟨2024, 3, 9, 7, 5, 0⟩ (by decide) ⟨[]⟩
    ⟨utf8 "GET", [], utf8 "/", ⟨[], utf8 "/", [], []⟩, by decide⟩).1.trans (by decide)

/-! ## Startup -/

/-- C8: whatever `http.ListenAndServe` returns, `main` returns, and its actions
are, in this order: the nine startup lines on standard output, exactly one call
of `http.ListenAndServe` on the address `:8080`, and then nothing if the call
returned nil, or exactly one more line, `❌ Error starting server: ` followed
by the error and a newline, if it returned an error. -/
theorem main_startup_and_listen (err : Option Bytes) :
    ∃ w, main err = .ok w ∧
      w.trace =
        [Event.stdout (utf8 "Hello, World! This is my first Go program!\n"),
         Event.stdout (utf8 "I'm learning Go programming! 🚀\n"),
         Event.stdout (utf8 "\n"),
         Event.stdout (utf8 "🚀 Server starting on http://localhost:8080\n"),
         Event.stdout (utf8 "📍 Try these endpoints:\n"),
         Event.stdout (utf8 "   - http://localhost:8080\n"),
         Event.stdout (utf8 "   - http://localhost:8080/greet/YourName\n"),
         Event.stdout (utf8 "   - http://localhost:8080/about\n"),
         Event.stdout (utf8 "\nPress Ctrl+C to stop the server\n"),
         Event.listenAndServe (utf8 ":8080")] ++
        (match err with
         | none => []
         | some e => [Event.stdout (utf8 "❌ Error starting server: " ++ e ++ utf8 "\n")]) ∧
      (w.trace.filter Event.isListen).length = 1 := by
  refine ⟨_, main_eq err, ?_, ?_⟩
  · rfl
  · cases err <;> simp [startupOutput, Event.isListen]

/-! ## Slice safety of the greet handler -/

/-- C9: every request that the route table of `main` dispatches to the greet
handler has a path with the prefix `/greet/`, hence of length at least 7, and
the greet handler returns normally on it; the slice expression is out of range
exactly when the path is shorter than 7 bytes, which happens only when the
handler is called directly on such a path, for example `/greet`. -/
theorem greetHandler_slice_safe (err : Option Bytes) (w : World) (hw : main err = .ok w)
    (lib : Lib) (r : Request)
    (hd : (w.DefaultServeMux.Handler lib r).1 = .func .greetHandler) :
    utf8 "/greet/" <+: r.URL.Path ∧ 7 ≤ r.URL.Path.length ∧
    (∀ w₀ : ResponseWriter, ∃ w₁, greetHandler w₀ r = .ok w₁) ∧
    (∀ (w₀ : ResponseWriter) (r₀ : Request),
      greetHandler w₀ r₀ = .error .sliceOutOfRange ↔ r₀.URL.Path.length < 7) ∧
    (∀ (w₀ : ResponseWriter) (r₀ : Request), r₀.URL.Path = utf8 "/greet" →
      greetHandler w₀ r₀ = .error .sliceOutOfRange) := by
  rw [main_mux err w hw] at hd
  have hpre := Handler_greet_inv lib r hd
  have hlen : (utf8 "/greet/").length = 7 := by decide
  have h7 : 7 ≤ r.URL.Path.length := by
    have := hpre.length_le
    rwa [hlen] at this
  have hiff : ∀ (w₀ : ResponseWriter) (r₀ : Request),
      greetHandler w₀ r₀ = .error .sliceOutOfRange ↔ r₀.URL.Path.length < 7 := by
    intro w₀ r₀
    constructor
    · intro h
      by_contra hn
      have hle : 7 ≤ r₀.URL.Path.length := by omega
      unfold greetHandler at h
      simp only [sliceFrom, hlen, hle, if_true, bind, Except.bind] at h
      split_ifs at h
      · simp [Fprintf] at h
        split at h <;> simp at h
      · simp [Fprintf] at h
        split at h <;> simp at h
    · intro h
      have : ¬ 7 ≤ r₀.URL.Path.length := by omega
      simp [greetHandler, sliceFrom, hlen, this, bind, Except.bind]
  refine ⟨hpre, h7, ?_, hiff, ?_⟩
  · intro w₀
    obtain ⟨name, hname⟩ := hpre
    exact ⟨_, greetHandler_eq w₀ r name hname.symm⟩
  · intro w₀ r₀ h₀
    rw [hiff, h₀]
    decide

/-- Witness for C9: `GET /greet/Bob` is dispatched to the greet handler, and
its path has 10 bytes. -/
theorem greetHandler_slice_safe_witness :
    registeredMux.Handler ⟨id, 307⟩ ⟨utf8 "GET", utf8 "localhost:8080", utf8 "/greet/Bob",
        ⟨[], utf8 "/greet/Bob", [], []⟩, by decide⟩ = (.func .greetHandler, utf8 "/greet/") ∧
    7 ≤ (utf8 "/greet/Bob").length :=
  have h : registeredMux.Handler ⟨id, 307⟩ ⟨utf8 "GET", utf8 "localhost:8080",
      utf8 "/greet/Bob", ⟨[], utf8 "/greet/Bob", [], []⟩, by decide⟩ =
      (.func .greetHandler, utf8 "/greet/") :=
    Handler_greet _ _ (utf8 "greet") (utf8 "Bob") (by decide) (by decide) (by decide)
      (Or.inr (by rw [show URL.EscapedPath _ = utf8 "/greet/Bob" from by decide]
                  exact cleanPath_greetBob))
  ⟨h, (greetHandler_slice_safe none _ (main_eq none) ⟨id, 307⟩
    ⟨utf8 "GET", utf8 "localhost:8080", utf8 "/greet/Bob", ⟨[], utf8 "/greet/Bob", [], []⟩,
      by decide⟩
    (by
      show (registeredMux.Handler _ _).1 = _
      rw [h])).2.1⟩

end GoCapstone
